import Mathlib

/-!
Verification development for the laspy LAS/LAZ header codec
(`src/laspy/header.py`).

The embedding below translates the source file into Lean:

* byte streams are `List Nat` (each element a byte value `< 256` whenever it
  was produced by a serializer);
* Python `int.to_bytes(w, "little")` / `int.from_bytes` become `toBytesLE` /
  `fromBytesLE`;
* the 8-byte IEEE-754 doubles stored in the header (scales, offsets, maxs,
  mins, and the per-sub-record scale/offset arrays of the Extra-Bytes VLR)
  are modelled by their 64-bit little-endian bit patterns (`Nat < 2^64`),
  which is exact for the serialization claims ("bit-identical" round trips);
* fallible operations return `Except LaspyErr`;
* external collaborators that are not part of `src/` (the point-format
  registry `laspy.point.dims`, `laspy.point.format.PointFormat`,
  `laspy.vlrs`, `laspy.extradims`, `laspy.compression`) are modelled from
  the specification; each such definition carries a doc comment starting
  with `Modelled from the spec:`.
-/

namespace Laspy

/-! ### Little-endian byte codec -/

/-- Model of Python `n.to_bytes(w, "little", signed=False)`: `w` bytes,
little-endian.  Python raises `OverflowError` when `n ≥ 2^(8*w)`; the model
instead truncates (`% 256` per byte); the theorems below only invoke it on
in-range values, where the two agree. -/
def toBytesLE : Nat → Nat → List Nat
  | 0, _ => []
  | w + 1, n => n % 256 :: toBytesLE w (n / 256)

/-- Model of Python `int.from_bytes(bs, "little", signed=False)`. -/
def fromBytesLE : List Nat → Nat
  | [] => 0
  | b :: bs => b + 256 * fromBytesLE bs

/-- Model of Python `bytes.rstrip(b"\x00")`. -/
def rstripZeros (l : List Nat) : List Nat :=
  (l.reverse.dropWhile (· = 0)).reverse

/-- Model of the 32-byte string-field encoding in `write_to`: ASCII strings
longer than 32 bytes are truncated (with a warning in the source), shorter
ones are NUL-padded to exactly 32 bytes. -/
def encodeStr32 (s : List Nat) : List Nat :=
  if s.length > 32 then s.take 32 else s ++ List.replicate (32 - s.length) 0

/-! ### Reader state

`RSt` models the byte stream handed to `read_from`: `rem` is the part not
yet consumed and `pos` the stream position (`stream.tell()`).  `rd n`
models `stream.read(n)`, which at end-of-file returns the available prefix
and advances the position by the number of bytes actually read. -/

structure RSt where
  rem : List Nat
  pos : Nat
deriving DecidableEq

def rd (n : Nat) (st : RSt) : List Nat × RSt :=
  (st.rem.take n, ⟨st.rem.drop n, st.pos + min n st.rem.length⟩)

def rdInt (w : Nat) (st : RSt) : Nat × RSt :=
  let (bs, st') := rd w st
  (fromBytesLE bs, st')

/-! ### Version (`class Version`) -/

/-- Model of `Version`: the `(major, minor)` pair.  The string interop of
the source (`from_str`, `__str__`, string equality) is only used to key the
per-version tables, which the model keys by the pair directly. -/
structure Version where
  major : Nat
  minor : Nat
deriving DecidableEq

/-! ### Calendar dates

The source stores `creation_date : Optional[datetime.date]` but only ever
reads and writes it through the pair (day-of-year, year), so the model
represents a date by that pair.  `date.today()` is an effect; operations of
the source that call it take the current date as an explicit argument. -/

structure Date where
  year : Nat
  yday : Nat
deriving DecidableEq

def isLeapYear (y : Nat) : Bool :=
  (y % 4 = 0 && y % 100 ≠ 0) || y % 400 = 0

def daysInYear (y : Nat) : Nat := if isLeapYear y then 366 else 365

/-- Carry a day count forward over year boundaries (fuel-bounded; the
day-of-year field read from the stream is `< 2^16`, which 200 years cover). -/
def rollDate : Nat → Nat → Nat → Option Date
  | 0, _, _ => none
  | fuel + 1, y, d =>
    if y > 9999 then none
    else if d ≤ daysInYear y then some ⟨y, d⟩
    else rollDate fuel (y + 1) (d - daysInYear y)

/-- Model of `date(creation_year, 1, 1) + timedelta(creation_day_of_year - 1)`
wrapped in `try/except ValueError` (`read_from`): an out-of-range year gives
`None`; a day count beyond the year's length rolls over into the following
years (Python date arithmetic does not fail there); day zero steps back to
December 31 of the previous year. -/
def dateFromYdayYear (yday year : Nat) : Option Date :=
  if year < 1 ∨ year > 9999 then none
  else if yday = 0 then
    if year = 1 then none else some ⟨year - 1, daysInYear (year - 1)⟩
  else rollDate 200 year yday

/-- A date the codec round-trips: a real calendar position. -/
def DateWF (d : Date) : Prop :=
  1 ≤ d.year ∧ d.year ≤ 9999 ∧ 1 ≤ d.yday ∧ d.yday ≤ daysInYear d.year

instance (d : Date) : Decidable (DateWF d) := by unfold DateWF; infer_instance

def OptDateWF : Option Date → Prop
  | none => True
  | some d => DateWF d

instance (o : Option Date) : Decidable (OptDateWF o) := by
  cases o <;> unfold OptDateWF <;> infer_instance

/-! ### GlobalEncoding (`class GlobalEncoding`) -/

inductive GpsTimeType where
  | week_time
  | standard
deriving DecidableEq

structure GlobalEncoding where
  value : Nat
deriving DecidableEq

namespace GlobalEncoding

def GPS_TIME_TYPE_MASK : Nat := 1
def WAVEFORM_INTERNAL_MASK : Nat := 2
def WAVEFORM_EXTERNAL_MASK : Nat := 4
def SYNTHETIC_RETURN_NUMBERS_MASK : Nat := 8
def WKT_MASK : Nat := 16

def set_bit (g : GlobalEncoding) (mask : Nat) : GlobalEncoding :=
  ⟨g.value ||| mask⟩

/-- Faithful to the source: `_unset_bit` is `self.value ^= mask`, an XOR,
not a clear. -/
def unset_bit (g : GlobalEncoding) (mask : Nat) : GlobalEncoding :=
  ⟨g.value ^^^ mask⟩

def set_if_true (g : GlobalEncoding) (mask : Nat) (value : Bool) : GlobalEncoding :=
  if value then g.set_bit mask else g.unset_bit mask

def gps_time_type (g : GlobalEncoding) : Nat :=
  g.value &&& GPS_TIME_TYPE_MASK

/-- Faithful to the source setter: `self.value ^= MASK; self.value |= int(value) & MASK`. -/
def set_gps_time_type (g : GlobalEncoding) (value : Nat) : GlobalEncoding :=
  ⟨(g.value ^^^ GPS_TIME_TYPE_MASK) ||| (value &&& GPS_TIME_TYPE_MASK)⟩

def waveform_data_packets_internal (g : GlobalEncoding) : Bool :=
  g.value &&& WAVEFORM_INTERNAL_MASK ≠ 0

def set_waveform_data_packets_internal (g : GlobalEncoding) (value : Bool) : GlobalEncoding :=
  g.set_if_true WAVEFORM_INTERNAL_MASK value

def waveform_data_packets_external (g : GlobalEncoding) : Bool :=
  g.value &&& WAVEFORM_EXTERNAL_MASK ≠ 0

def set_waveform_data_packets_external (g : GlobalEncoding) (value : Bool) : GlobalEncoding :=
  g.set_if_true WAVEFORM_EXTERNAL_MASK value

def synthetic_return_numbers (g : GlobalEncoding) : Bool :=
  g.value &&& SYNTHETIC_RETURN_NUMBERS_MASK ≠ 0

def set_synthetic_return_numbers (g : GlobalEncoding) (value : Bool) : GlobalEncoding :=
  g.set_if_true SYNTHETIC_RETURN_NUMBERS_MASK value

def wkt (g : GlobalEncoding) : Bool :=
  g.value &&& WKT_MASK ≠ 0

def set_wkt (g : GlobalEncoding) (value : Bool) : GlobalEncoding :=
  g.set_if_true WKT_MASK value

def write_to (g : GlobalEncoding) : List Nat := toBytesLE 2 g.value

def read_from (bs : List Nat) : GlobalEncoding := ⟨fromBytesLE bs⟩

end GlobalEncoding

/-! ### Point formats and extra dimensions

The point-format entity lives in `laspy.point.format` / `laspy.point.dims`,
which are not under `src/`; the spec treats it as an external collaborator
("an opaque id plus a byte size and an ordered list of extra dimension
descriptors").  The modelled byte sizes are the standard LAS record sizes
for ids 0-10. -/

/-- Scalar element kinds of extra dimensions, mirroring the numpy type
strings (`u1`, `i1`, ..., `f8`) the source inspects via `type_str()`. -/
inductive ElemKind where
  | u1 | i1 | u2 | i2 | u4 | i4 | u8 | i8 | f4 | f8
deriving DecidableEq

def ElemKind.byteSize : ElemKind → Nat
  | .u1 => 1 | .i1 => 1 | .u2 => 2 | .i2 => 2 | .u4 => 4
  | .i4 => 4 | .u8 => 8 | .i8 => 8 | .f4 => 4 | .f8 => 8

/-- Position of the kind in the Extra-Bytes data-type table (tags 1-10 are
the single-element types, in this order). -/
def ElemKind.tagIndex : ElemKind → Nat
  | .u1 => 1 | .i1 => 2 | .u2 => 3 | .i2 => 4 | .u4 => 5
  | .i4 => 6 | .u8 => 7 | .i8 => 8 | .f4 => 9 | .f8 => 10

/-- Modelled from the spec: `laspy.extradims.get_id_for_extra_dim_type`,
the lookup table from a scalar type with element count 1-3 to the numeric
Extra-Bytes type tag (tags 11-20 are the two-element forms, 21-30 the
three-element forms of tags 1-10).  Out-of-table inputs (count 0 or > 3)
raise in the source; the theorems only use in-table inputs. -/
def get_id_for_extra_dim_type (kind : ElemKind) (count : Nat) : Nat :=
  kind.tagIndex + 10 * (count - 1)

def kindOfTagIndex (i : Nat) : Option ElemKind :=
  match i with
  | 1 => some .u1 | 2 => some .i1 | 3 => some .u2 | 4 => some .i2
  | 5 => some .u4 | 6 => some .i4 | 7 => some .u8 | 8 => some .i8
  | 9 => some .f4 | 10 => some .f8 | _ => none

/-- Modelled from the spec: one extra-dimension descriptor of the point
format (`ExtraBytesParams` / the point format's extra-dimension entries):
name, free-text description, element count, scalar kind, optional
per-element scale and offset arrays (IEEE-754 doubles, stored as 64-bit
patterns).  Names and descriptions are byte strings. -/
structure ExtraDim where
  name : List Nat
  description : List Nat
  num_elements : Nat
  kind : ElemKind
  scales : Option (List Nat)
  offsets : Option (List Nat)
deriving DecidableEq

def ExtraDim.byteSize (d : ExtraDim) : Nat := d.num_elements * d.kind.byteSize

/-- Modelled from the spec: the point format, an opaque id plus an ordered
list of extra-dimension descriptors. -/
structure PointFormat where
  id : Nat
  extra_dimensions : List ExtraDim
deriving DecidableEq

/-- Modelled from the spec: byte size of the base (extra-dimension-free)
point record for each of the standard ids 0-10; unknown ids fail
construction in the source. -/
def basePointFormatSize (id : Nat) : Option Nat :=
  match id with
  | 0 => some 20 | 1 => some 28 | 2 => some 26 | 3 => some 34
  | 4 => some 57 | 5 => some 63 | 6 => some 30 | 7 => some 36
  | 8 => some 38 | 9 => some 59 | 10 => some 67
  | _ => none

/-- Modelled from the spec: `PointFormat.size`, the base record size plus
the bytes of every extra dimension. -/
def PointFormat.size (pf : PointFormat) : Nat :=
  (basePointFormatSize pf.id).getD 0 + (pf.extra_dimensions.map ExtraDim.byteSize).sum

/-- Modelled from the spec: `PointFormat.add_extra_dimension` appends one
descriptor to the ordered list. -/
def PointFormat.add_extra_dimension (pf : PointFormat) (d : ExtraDim) : PointFormat :=
  { pf with extra_dimensions := pf.extra_dimensions ++ [d] }

/-! ### Version / point-format compatibility oracle

Modelled from the spec: the external oracle `laspy.point.dims` confirming
that a point-format id may be stored under a file version, together with
the minimum format for a version and the preferred version for a format.
The populated table is the standard LAS one (1.1: ids 0-1, 1.2: 0-3,
1.3: 0-5, 1.4: 0-10). -/

def versionToPointFormats (v : Version) : Option (List Nat) :=
  match v.major, v.minor with
  | 1, 1 => some [0, 1]
  | 1, 2 => some [0, 1, 2, 3]
  | 1, 3 => some [0, 1, 2, 3, 4, 5]
  | 1, 4 => some [0, 1, 2, 3, 4, 5, 6, 7, 8, 9, 10]
  | _, _ => none

/-- Modelled from the spec: `dims.raise_if_version_not_compatible_with_fmt`
succeeds exactly when this returns `true` (the source raises distinct
exception classes for an unknown version and for an unsupported format;
the spec lumps both under `IncompatibleFormatError`). -/
def isCompatible (fmtId : Nat) (v : Version) : Bool :=
  match versionToPointFormats v with
  | none => false
  | some l => l.contains fmtId

/-- Modelled from the spec: `dims.min_point_format_for_version`. -/
def minPointFormatForVersion (v : Version) : Option Nat :=
  (versionToPointFormats v).bind List.head?

/-- Modelled from the spec: `dims.preferred_file_version_for_point_format`. -/
def preferredVersionForPointFormat (fmtId : Nat) : Option Version :=
  if fmtId ≤ 3 then some ⟨1, 2⟩
  else if fmtId ≤ 5 then some ⟨1, 3⟩
  else if fmtId ≤ 10 then some ⟨1, 4⟩
  else none

/-! ### LAZ compressed-id convention -/

/-- Modelled from the spec: ids 0-127 are uncompressed; the compressed id
of a canonical id sits one bit-7 band above it. -/
def uncompressed_id_to_compressed (id : Nat) : Nat := id + 128

/-- Modelled from the spec: inverse of the compressed-id map. -/
def compressed_id_to_uncompressed (id : Nat) : Nat := id % 128

/-- Modelled from the spec: whether a raw point-format id denotes LAZ
compression. -/
def is_point_format_compressed (id : Nat) : Bool := 128 ≤ id

/-! ### Extra-Bytes VLR sub-records

`ExtraBytesStruct` lives in `laspy.vlrs.known` (not under `src/`); the
fields below are the ones `header.py` manipulates plus the reserved bytes
of the spec's fixed sub-record layout (2 reserved bytes, 1 flag byte with
bit 0 = scale-present and bit 1 = offset-present, 1 data-type byte, 1
options byte, 32-byte name, 4 reserved bytes, 3 x 8-byte scale array,
3 x 8-byte offset array, 32-byte description; 121 bytes in total). -/

structure ExtraBytesStruct where
  reserved : Nat := 0
  flags : Nat := 0
  data_type : Nat := 0
  options : Nat := 0
  name : List Nat := []
  reserved2 : Nat := 0
  scale : List Nat := [0, 0, 0]
  offset : List Nat := [0, 0, 0]
  description : List Nat := []
deriving DecidableEq

def ExtraBytesStruct.set_scale_is_relevant (s : ExtraBytesStruct) : ExtraBytesStruct :=
  { s with flags := s.flags ||| 1 }

def ExtraBytesStruct.set_offset_is_relevant (s : ExtraBytesStruct) : ExtraBytesStruct :=
  { s with flags := s.flags ||| 2 }

def ExtraBytesStruct.scale_is_relevant (s : ExtraBytesStruct) : Bool :=
  s.flags &&& 1 ≠ 0

def ExtraBytesStruct.offset_is_relevant (s : ExtraBytesStruct) : Bool :=
  s.flags &&& 2 ≠ 0

/-- Copy the first `n` entries of `src` over `dst` (the source loops
`for i in range(num_elements): arr[i] = src[i]` on a fixed 3-slot array;
descriptors carrying scale/offset values have `num_elements ≤ 3`). -/
def copyIntoSlots (n : Nat) (src dst : List Nat) : List Nat :=
  (List.range 3).map fun i => if i < n then src.getD i 0 else dst.getD i 0

/-- The sub-record built for one extra dimension by
`LasHeader._sync_extra_bytes_vlr`: name and description copied, the type
tag looked up from the scalar type (sentinel 0 with the element count in
`options` for byte arrays of more than 3 unsigned single bytes), and the
scale/offset arrays copied with their flag bits whenever the descriptor
carries them. -/
def ebStructOfDim (d : ExtraDim) : ExtraBytesStruct :=
  let base : ExtraBytesStruct := { name := d.name, description := d.description }
  let (type_id, base) :=
    if d.num_elements > 3 ∧ d.kind = ElemKind.u1 then
      (0, { base with options := d.num_elements })
    else
      (get_id_for_extra_dim_type d.kind d.num_elements, base)
  let base :=
    match d.scales with
    | none => base
    | some sc =>
      { base.set_scale_is_relevant with scale := copyIntoSlots d.num_elements sc base.scale }
  let base :=
    match d.offsets with
    | none => base
    | some os =>
      { base.set_offset_is_relevant with offset := copyIntoSlots d.num_elements os base.offset }
  { base with data_type := type_id }

/-- Modelled from the spec: `ExtraBytesVlr.type_of_extra_dims`, decoding a
sub-record back into a descriptor: sentinel tag 0 denotes an undocumented
byte array whose element count sits in `options`; tags 1-30 are inverted
through the lookup table; the scale/offset arrays are taken (first
`num_elements` slots) exactly when their flag bits are set.  Unknown tags
fail (the source raises). -/
def dimOfEbStruct (s : ExtraBytesStruct) : Option ExtraDim :=
  let decoded : Option (ElemKind × Nat) :=
    if s.data_type = 0 then some (ElemKind.u1, s.options)
    else if 1 ≤ s.data_type ∧ s.data_type ≤ 30 then
      (kindOfTagIndex ((s.data_type - 1) % 10 + 1)).map fun k => (k, (s.data_type - 1) / 10 + 1)
    else none
  decoded.map fun (kind, n) =>
    { name := s.name
      description := s.description
      num_elements := n
      kind := kind
      scales := if s.scale_is_relevant then some (s.scale.take n) else none
      offsets := if s.offset_is_relevant then some (s.offset.take n) else none }

def dimsOfEbStructs (l : List ExtraBytesStruct) : Option (List ExtraDim) :=
  l.mapM dimOfEbStruct

/-! ### VLR records and their binary framing

Modelled from the spec: the generic VLR container is an ordered list
supporting extraction of the records of a named kind and append, plus
whole-list binary read/write given an expected record count.  The only
record type interpreted by the header is the Extra-Bytes VLR; every other
record is an opaque tagged payload.  The exact framing of a record is not
specified (it is outside the spec's scope), so the model uses a simple
self-describing frame: a 1-byte kind marker (1 = Extra-Bytes), then for
Extra-Bytes a 2-byte sub-record count followed by the 121-byte sub-records,
and for opaque records a 2-byte tag, a 2-byte payload length and the
payload. -/

inductive VLRRecord where
  | eb : List ExtraBytesStruct → VLRRecord
  | other : Nat → List Nat → VLRRecord
deriving DecidableEq

def isEbRecord : VLRRecord → Bool
  | .eb _ => true
  | .other _ _ => false

/-- Serialized form of one Extra-Bytes sub-record (121 bytes). -/
def ebStructToBytes (s : ExtraBytesStruct) : List Nat :=
  toBytesLE 2 s.reserved ++ toBytesLE 1 s.flags ++ toBytesLE 1 s.data_type ++
  toBytesLE 1 s.options ++ encodeStr32 s.name ++ toBytesLE 4 s.reserved2 ++
  toBytesLE 8 (s.scale.getD 0 0) ++ toBytesLE 8 (s.scale.getD 1 0) ++
  toBytesLE 8 (s.scale.getD 2 0) ++
  toBytesLE 8 (s.offset.getD 0 0) ++ toBytesLE 8 (s.offset.getD 1 0) ++
  toBytesLE 8 (s.offset.getD 2 0) ++ encodeStr32 s.description

def vlrRecordToBytes : VLRRecord → List Nat
  | .eb structs => toBytesLE 1 1 ++ toBytesLE 2 structs.length ++
      (structs.map ebStructToBytes).flatten
  | .other tag payload => toBytesLE 1 0 ++ toBytesLE 2 tag ++
      toBytesLE 2 payload.length ++ payload

/-- Modelled from the spec: `VLRList.write_to`, concatenating the records. -/
def vlrsToBytes (l : List VLRRecord) : List Nat :=
  (l.map vlrRecordToBytes).flatten

def rdEbStruct (st : RSt) : ExtraBytesStruct × RSt :=
  let (reserved, st) := rdInt 2 st
  let (flags, st) := rdInt 1 st
  let (data_type, st) := rdInt 1 st
  let (options, st) := rdInt 1 st
  let (name, st) := rd 32 st
  let (reserved2, st) := rdInt 4 st
  let (s0, st) := rdInt 8 st
  let (s1, st) := rdInt 8 st
  let (s2, st) := rdInt 8 st
  let (o0, st) := rdInt 8 st
  let (o1, st) := rdInt 8 st
  let (o2, st) := rdInt 8 st
  let (description, st) := rd 32 st
  ({ reserved := reserved, flags := flags, data_type := data_type,
     options := options, name := rstripZeros name, reserved2 := reserved2,
     scale := [s0, s1, s2], offset := [o0, o1, o2],
     description := rstripZeros description }, st)

def rdEbStructs : Nat → RSt → List ExtraBytesStruct × RSt
  | 0, st => ([], st)
  | n + 1, st =>
    let (s, st) := rdEbStruct st
    let (rest, st) := rdEbStructs n st
    (s :: rest, st)

inductive LaspyErr where
  | invalidSignature
  | incoherentHeaderSize
  | incoherentOffset
  | incoherentPointSize
  | pointCountOverflow
  | incompatibleFormat
  | unsupportedVersion
  | unknownPointFormat
  | badVlrBytes
  | badExtraBytesStruct
deriving DecidableEq

def rdVlrRecord (st : RSt) : Except LaspyErr (VLRRecord × RSt) :=
  let (kind, st) := rdInt 1 st
  if kind = 1 then
    let (n, st) := rdInt 2 st
    let (structs, st) := rdEbStructs n st
    .ok (.eb structs, st)
  else if kind = 0 then
    let (tag, st) := rdInt 2 st
    let (len, st) := rdInt 2 st
    let (payload, st) := rd len st
    .ok (.other tag payload, st)
  else .error .badVlrBytes

/-- Modelled from the spec: `VLRList.read_from(stream, num_to_read)`. -/
def vlrListReadFrom : Nat → RSt → Except LaspyErr (List VLRRecord × RSt)
  | 0, st => .ok ([], st)
  | n + 1, st =>
    match rdVlrRecord st with
    | .error e => .error e
    | .ok (r, st) =>
      match vlrListReadFrom n st with
      | .error e => .error e
      | .ok (rs, st) => .ok (r :: rs, st)

/-! ### The header aggregate (`class LasHeader`)

Fields follow the source one-to-one.  `scales`, `offsets`, `maxs`, `mins`
are the three-element float64 arrays, stored as 64-bit IEEE-754 bit
patterns; `number_of_points_by_return` is the 15-slot `uint32` array;
`uuid` is the 16-byte little-endian GUID blob; the identifier strings are
byte strings.  The private `_version` / `_point_format` attributes appear
as `version` / `point_format` (their public getters). -/

structure LasHeader where
  file_source_id : Nat
  global_encoding : GlobalEncoding
  uuid : List Nat
  version : Version
  system_identifier : List Nat
  generating_software : List Nat
  point_format : PointFormat
  creation_date : Option Date
  point_count : Nat
  scales : List Nat
  offsets : List Nat
  maxs : List Nat
  mins : List Nat
  number_of_points_by_return : List Nat
  vlrs : List VLRRecord
  extra_header_bytes : List Nat
  extra_vlr_bytes : List Nat
  start_of_waveform_data_packet_record : Nat
  start_of_first_evlr : Nat
  number_of_evlrs : Nat
  offset_to_point_data : Nat
  are_points_compressed : Bool
deriving DecidableEq

/-- Model of `LasHeader._sync_extra_bytes_vlr`: remove every Extra-Bytes
VLR from the container (`vlrs.extract`), then, when the point format
carries extra dimensions, append one Extra-Bytes VLR holding one encoded
sub-record per dimension, in order. -/
def LasHeader.sync_extra_bytes_vlr (h : LasHeader) : LasHeader :=
  let vlrs := h.vlrs.filter fun r => ! isEbRecord r
  let extra_dimensions := h.point_format.extra_dimensions
  if extra_dimensions.isEmpty then { h with vlrs := vlrs }
  else { h with vlrs := vlrs ++ [.eb (extra_dimensions.map ebStructOfDim)] }

/-- Bit pattern of the IEEE-754 double 0.01, the default scale value. -/
def scale001 : Nat := 0x3F847AE147AE147B

/-- Byte string "OTHER" (default `system_identifier`). -/
def strOther : List Nat := [79, 84, 72, 69, 82]

/-- Byte string "laspy" (default `generating_software`). -/
def strLaspy : List Nat := [108, 97, 115, 112, 121]

/-- Field initialization of `LasHeader.__init__` after the version/format
pair has been resolved and validated, followed by the constructor's
closing `_sync_extra_bytes_vlr()` call.  `today` stands for `date.today()`. -/
def freshHeader (version : Version) (point_format : PointFormat) (today : Date) : LasHeader :=
  LasHeader.sync_extra_bytes_vlr
    { file_source_id := 0
      global_encoding := ⟨0⟩
      uuid := List.replicate 16 0
      version := version
      system_identifier := strOther
      generating_software := strLaspy
      point_format := point_format
      creation_date := some today
      point_count := 0
      scales := [scale001, scale001, scale001]
      offsets := [0, 0, 0]
      maxs := [0, 0, 0]
      mins := [0, 0, 0]
      number_of_points_by_return := List.replicate 15 0
      vlrs := []
      extra_header_bytes := []
      extra_vlr_bytes := []
      start_of_waveform_data_packet_record := 0
      start_of_first_evlr := 0
      number_of_evlrs := 0
      offset_to_point_data := 0
      are_points_compressed := false }

/-- Model of `LasHeader.__init__(version=..., point_format=...)`: resolve
defaults (1.2 / format 3; the minimum format for a lone version; the
preferred version for a lone format), validate through the oracle, then
initialize. -/
def mkLasHeader (version : Option Version) (point_format : Option PointFormat)
    (today : Date) : Except LaspyErr LasHeader :=
  let resolved : Except LaspyErr (Version × PointFormat) :=
    match version, point_format with
    | none, none => .ok (⟨1, 2⟩, ⟨3, []⟩)
    | some v, none =>
      match minPointFormatForVersion v with
      | none => .error .incompatibleFormat
      | some fid => .ok (v, ⟨fid, []⟩)
    | none, some pf =>
      match preferredVersionForPointFormat pf.id with
      | none => .error .incompatibleFormat
      | some v => .ok (v, pf)
    | some v, some pf => .ok (v, pf)
  match resolved with
  | .error e => .error e
  | .ok (v, pf) =>
    if isCompatible pf.id v then .ok (freshHeader v pf today)
    else .error .incompatibleFormat

/-- Model of the `point_format` property setter: validate the new format's
id against the current version, then replace and resynchronize the
Extra-Bytes VLR.  The validation raises before anything is assigned, so on
failure the header is unchanged. -/
def LasHeader.set_point_format (h : LasHeader) (f : PointFormat) :
    Except LaspyErr LasHeader :=
  if isCompatible f.id h.version then
    .ok (LasHeader.sync_extra_bytes_vlr { h with point_format := f })
  else .error .incompatibleFormat

/-- Model of the `version` property setter: validate the current format id
against the new version, then replace. -/
def LasHeader.set_version (h : LasHeader) (v : Version) :
    Except LaspyErr LasHeader :=
  if isCompatible h.point_format.id v then .ok { h with version := v }
  else .error .incompatibleFormat

/-- Model of `LasHeader.add_extra_dims`: delegate each descriptor to the
point format, then resynchronize. -/
def LasHeader.add_extra_dims (h : LasHeader) (params : List ExtraDim) : LasHeader :=
  LasHeader.sync_extra_bytes_vlr
    { h with point_format := params.foldl PointFormat.add_extra_dimension h.point_format }

/-- Model of `LasHeader.partial_reset`.  Note the source also assigns
`self.creation_date = date.today()` (passed here as `today`). -/
def LasHeader.partial_reset (h : LasHeader) (today : Date) : LasHeader :=
  { h with
      creation_date := some today
      point_count := 0
      maxs := [0, 0, 0]
      mins := [0, 0, 0]
      number_of_points_by_return := List.replicate 15 0
      start_of_first_evlr := 0
      number_of_evlrs := 0 }

/-! ### `LasHeader.update` -/

/-- Model of the batch handed to `update` (a `PackedPointRecord`): the
per-point return numbers.  The X/Y/Z integer columns are omitted: they feed
only the IEEE-754 recomputation of the max/min vectors, which `update`
below receives as explicit `new_maxs` / `new_mins` inputs, since
floating-point arithmetic is outside this embedding.  `len(points)` is the
length of the column. -/
structure PackedPointRecord where
  return_number : List Nat
deriving DecidableEq

def insertSorted (x : Nat) : List Nat → List Nat
  | [] => [x]
  | y :: ys => if x ≤ y then x :: y :: ys else y :: insertSorted x ys

def sortNat (l : List Nat) : List Nat := l.foldr insertSorted []

/-- Model of `np.unique(values, return_counts=True)`: the distinct values
in ascending order, each with its occurrence count. -/
def uniqueCounts (l : List Nat) : List (Nat × Nat) :=
  (sortNat l.dedup).map fun v => (v, l.count v)

/-- The histogram fold of `update`: skip return-number 0, stop at the first
value beyond the histogram's capacity (the unique values arrive sorted
ascending), otherwise add the count into slot `value - 1` (`uint32`
arithmetic, hence the wrap modulus). -/
def accumulateByReturn (hist : List Nat) : List (Nat × Nat) → List Nat
  | [] => hist
  | (rn, c) :: rest =>
    if rn = 0 then accumulateByReturn hist rest
    else if rn > hist.length then hist
    else accumulateByReturn
      (hist.set (rn - 1) ((hist.getD (rn - 1) 0 + c) % 4294967296)) rest

/-- Model of `LasHeader.update`: fold one batch into the header.  The
max/min recomputation `max(self.x_max, points["X"].max() * scale + offset)`
(etc.) is IEEE-754 double arithmetic; its six results enter as the
`new_maxs` / `new_mins` bit-pattern vectors.  The return-number histogram
and the point count are folded exactly as in the source. -/
def LasHeader.update (h : LasHeader) (new_maxs new_mins : List Nat)
    (points : PackedPointRecord) : LasHeader :=
  { h with
      maxs := new_maxs
      mins := new_mins
      number_of_points_by_return :=
        accumulateByReturn h.number_of_points_by_return
          (uniqueCounts points.return_number)
      point_count := h.point_count + points.return_number.length }

/-- Model of `LasHeader.set_compressed`. -/
def LasHeader.set_compressed (h : LasHeader) (state : Bool) : LasHeader :=
  { h with are_points_compressed := state }

/-! ### Binary write (`LasHeader.write_to`) -/

/-- The per-version fixed header sizes (`LAS_HEADERS_SIZE`); `none` models
the `KeyError` an unknown version raises on lookup. -/
def LAS_HEADERS_SIZE (v : Version) : Option Nat :=
  match v.major, v.minor with
  | 1, 1 => some 227
  | 1, 2 => some 227
  | 1, 3 => some 235
  | 1, 4 => some 375
  | _, _ => none

def lasFileSignature : List Nat := [76, 65, 83, 70]

def dateYday : Option Date → Nat
  | some d => d.yday
  | none => 0

def dateYear : Option Date → Nat
  | some d => d.year
  | none => 0

/-- Bytes of the fixed region up to and including the point-record size
field (107 bytes for an in-range header): signature, file-source id,
global encoding, UUID, version, the two 32-byte strings, creation date,
header size, point-data offset, VLR count, (possibly compressed) format id
and point size. -/
def fixedPrefixBytes (h : LasHeader) (header_size : Nat) : List Nat :=
  lasFileSignature ++
  toBytesLE 2 h.file_source_id ++
  toBytesLE 2 h.global_encoding.value ++
  h.uuid ++
  toBytesLE 1 h.version.major ++
  toBytesLE 1 h.version.minor ++
  encodeStr32 h.system_identifier ++
  encodeStr32 h.generating_software ++
  toBytesLE 2 (dateYday h.creation_date) ++
  toBytesLE 2 (dateYear h.creation_date) ++
  toBytesLE 2 header_size ++
  toBytesLE 4 h.offset_to_point_data ++
  toBytesLE 4 h.vlrs.length ++
  toBytesLE 1 (if h.are_points_compressed then
    uncompressed_id_to_compressed h.point_format.id else h.point_format.id) ++
  toBytesLE 2 h.point_format.size

/-- The legacy point-count section (24 bytes): zeros under 1.4 semantics,
otherwise the 32-bit count followed by the first five histogram slots. -/
def countSectionBytes (h : LasHeader) : List Nat :=
  if h.version.minor ≥ 4 then List.replicate 24 0
  else
    toBytesLE 4 h.point_count ++
    toBytesLE 4 (h.number_of_points_by_return.getD 0 0) ++
    toBytesLE 4 (h.number_of_points_by_return.getD 1 0) ++
    toBytesLE 4 (h.number_of_points_by_return.getD 2 0) ++
    toBytesLE 4 (h.number_of_points_by_return.getD 3 0) ++
    toBytesLE 4 (h.number_of_points_by_return.getD 4 0)

/-- The three scale, three offset and per-axis interleaved max/min doubles
(96 bytes). -/
def coordsSectionBytes (h : LasHeader) : List Nat :=
  toBytesLE 8 (h.scales.getD 0 0) ++ toBytesLE 8 (h.scales.getD 1 0) ++
  toBytesLE 8 (h.scales.getD 2 0) ++
  toBytesLE 8 (h.offsets.getD 0 0) ++ toBytesLE 8 (h.offsets.getD 1 0) ++
  toBytesLE 8 (h.offsets.getD 2 0) ++
  toBytesLE 8 (h.maxs.getD 0 0) ++ toBytesLE 8 (h.mins.getD 0 0) ++
  toBytesLE 8 (h.maxs.getD 1 0) ++ toBytesLE 8 (h.mins.getD 1 0) ++
  toBytesLE 8 (h.maxs.getD 2 0) ++ toBytesLE 8 (h.mins.getD 2 0)

/-- Waveform-record offset, written only for minor >= 3. -/
def waveformSectionBytes (h : LasHeader) : List Nat :=
  if h.version.minor ≥ 3 then
    toBytesLE 8 h.start_of_waveform_data_packet_record
  else []

/-- First-EVLR offset, EVLR count, 64-bit point count and the full 15-slot
histogram, written only for minor >= 4 (140 bytes). -/
def evlrSectionBytes (h : LasHeader) : List Nat :=
  if h.version.minor ≥ 4 then
    toBytesLE 8 h.start_of_first_evlr ++
    toBytesLE 4 h.number_of_evlrs ++
    toBytesLE 8 h.point_count ++
    toBytesLE 8 (h.number_of_points_by_return.getD 0 0) ++
    toBytesLE 8 (h.number_of_points_by_return.getD 1 0) ++
    toBytesLE 8 (h.number_of_points_by_return.getD 2 0) ++
    toBytesLE 8 (h.number_of_points_by_return.getD 3 0) ++
    toBytesLE 8 (h.number_of_points_by_return.getD 4 0) ++
    toBytesLE 8 (h.number_of_points_by_return.getD 5 0) ++
    toBytesLE 8 (h.number_of_points_by_return.getD 6 0) ++
    toBytesLE 8 (h.number_of_points_by_return.getD 7 0) ++
    toBytesLE 8 (h.number_of_points_by_return.getD 8 0) ++
    toBytesLE 8 (h.number_of_points_by_return.getD 9 0) ++
    toBytesLE 8 (h.number_of_points_by_return.getD 10 0) ++
    toBytesLE 8 (h.number_of_points_by_return.getD 11 0) ++
    toBytesLE 8 (h.number_of_points_by_return.getD 12 0) ++
    toBytesLE 8 (h.number_of_points_by_return.getD 13 0) ++
    toBytesLE 8 (h.number_of_points_by_return.getD 14 0)
  else []

/-- Model of `LasHeader.write_to(stream, write_vlrs)`.  The call mutates
the header (it fills an absent creation date with today's date, and with
`write_vlrs` recomputes `offset_to_point_data`), so the result carries the
post-call header state alongside the produced bytes or the error.  Python
raises mid-write, after the mutations; the model performs the overflow
check before emitting bytes, which is observationally equal for a caller
that discards partial output on error. -/
def LasHeader.write_to (h : LasHeader) (today : Date) (write_vlrs : Bool) :
    LasHeader × Except LaspyErr (List Nat) :=
  let vlr_bytes := if write_vlrs then vlrsToBytes h.vlrs else []
  let h1 := if h.creation_date.isNone then { h with creation_date := some today } else h
  match LAS_HEADERS_SIZE h1.version with
  | none => (h1, .error .unsupportedVersion)
  | some header_size =>
    let h2 := if write_vlrs then
      { h1 with offset_to_point_data := header_size + vlr_bytes.length } else h1
    if h2.version.minor < 4 ∧ h2.point_count > 4294967295 then
      (h2, .error .pointCountOverflow)
    else
      (h2, .ok (fixedPrefixBytes h2 header_size ++ countSectionBytes h2 ++
        coordsSectionBytes h2 ++ waveformSectionBytes h2 ++
        evlrSectionBytes h2 ++ vlr_bytes))

/-! ### Binary read (`LasHeader.read_from`) -/

/-- First Extra-Bytes record of the container
(`vlrs.get("ExtraBytesVlr")[0]`, with the `IndexError` of an empty result
as `none`). -/
def firstEbStructs : List VLRRecord → Option (List ExtraBytesStruct)
  | [] => none
  | .eb structs :: _ => some structs
  | .other _ _ :: rest => firstEbStructs rest

/-- The point-format reconciliation step of `read_from` (source lines
518-538): recover the compression flag and canonical id, build the base
point format, then — decoding the first Extra-Bytes VLR if one is present —
either discard a spurious Extra-Bytes VLR (declared point size already
matches the extra-dimension-free format) or apply each decoded descriptor;
finally fail with `IncoherentPointSize` unless the declared point size
equals the resolved format's size.  Returns the resolved format and the
possibly pruned VLR list. -/
def reconcileFormat (point_format_id point_size : Nat) (vlrs : List VLRRecord) :
    Except LaspyErr (PointFormat × List VLRRecord) :=
  match basePointFormatSize (compressed_id_to_uncompressed point_format_id) with
  | none => .error .unknownPointFormat
  | some _ =>
    match
      ((match firstEbStructs vlrs with
       | none =>
         Except.ok ((⟨compressed_id_to_uncompressed point_format_id, []⟩ : PointFormat), vlrs)
       | some structs =>
         match dimsOfEbStructs structs with
         | none => .error .badExtraBytesStruct
         | some extra_dims =>
           if point_size = (⟨compressed_id_to_uncompressed point_format_id, []⟩ : PointFormat).size then
             .ok (⟨compressed_id_to_uncompressed point_format_id, []⟩,
                  vlrs.filter fun r => ! isEbRecord r)
           else
             .ok (extra_dims.foldl PointFormat.add_extra_dimension
                    ⟨compressed_id_to_uncompressed point_format_id, []⟩, vlrs)) :
        Except LaspyErr (PointFormat × List VLRRecord)) with
    | .error e => .error e
    | .ok (pf, vlrs') =>
      if point_size ≠ pf.size then .error .incoherentPointSize
      else .ok (pf, vlrs')

/-- Everything `read_from` does before the point-format reconciliation:
parse the fixed region (branching on the parsed minor version), reconcile
the declared header size against the stream position (shortfall read into
`extra_header_bytes`, excess fatal), parse the VLR section, and reconcile
the declared point-data offset (shortfall read into `extra_vlr_bytes`,
excess fatal).  Returns the partially populated header plus the raw
point-format id and declared point size. -/
def readPreamble (data : List Nat) (seekable : Bool) (today : Date) :
    Except LaspyErr (LasHeader × Nat × Nat) :=
  let h := freshHeader ⟨1, 2⟩ ⟨3, []⟩ today
  let st : RSt := ⟨data, 0⟩
  let (file_sig, st) := rd 4 st
  if file_sig ≠ lasFileSignature then .error .invalidSignature else
  let (file_source_id, st) := rdInt 2 st
  let (ge_value, st) := rdInt 2 st
  let (uuid, st) := rd 16 st
  let (vmajor, st) := rdInt 1 st
  let (vminor, st) := rdInt 1 st
  let version : Version := ⟨vmajor, vminor⟩
  let (sysid_raw, st) := rd 32 st
  let (gensw_raw, st) := rd 32 st
  let (creation_day_of_year, st) := rdInt 2 st
  let (creation_year, st) := rdInt 2 st
  let (header_size, st) := rdInt 2 st
  let (offset_to_point_data, st) := rdInt 4 st
  let (number_of_vlrs, st) := rdInt 4 st
  let (point_format_id, st) := rdInt 1 st
  let (point_size, st) := rdInt 2 st
  let (legacy_point_count, st) := rdInt 4 st
  let (lh0, st) := rdInt 4 st
  let (lh1, st) := rdInt 4 st
  let (lh2, st) := rdInt 4 st
  let (lh3, st) := rdInt 4 st
  let (lh4, st) := rdInt 4 st
  let (sc0, st) := rdInt 8 st
  let (sc1, st) := rdInt 8 st
  let (sc2, st) := rdInt 8 st
  let (of0, st) := rdInt 8 st
  let (of1, st) := rdInt 8 st
  let (of2, st) := rdInt 8 st
  let (mx0, st) := rdInt 8 st
  let (mn0, st) := rdInt 8 st
  let (mx1, st) := rdInt 8 st
  let (mn1, st) := rdInt 8 st
  let (mx2, st) := rdInt 8 st
  let (mn2, st) := rdInt 8 st
  let (start_of_waveform, st) :=
    if version.minor ≥ 3 then rdInt 8 st
    else (h.start_of_waveform_data_packet_record, st)
  let (start_of_first_evlr, number_of_evlrs, point_count, hist, st) :=
    if version.minor ≥ 4 then
      let (sfe, st) := rdInt 8 st
      let (nev, st) := rdInt 4 st
      let (pc, st) := rdInt 8 st
      let (h0, st) := rdInt 8 st
      let (h1, st) := rdInt 8 st
      let (h2, st) := rdInt 8 st
      let (h3, st) := rdInt 8 st
      let (h4, st) := rdInt 8 st
      let (h5, st) := rdInt 8 st
      let (h6, st) := rdInt 8 st
      let (h7, st) := rdInt 8 st
      let (h8, st) := rdInt 8 st
      let (h9, st) := rdInt 8 st
      let (h10, st) := rdInt 8 st
      let (h11, st) := rdInt 8 st
      let (h12, st) := rdInt 8 st
      let (h13, st) := rdInt 8 st
      let (h14, st) := rdInt 8 st
      (sfe, nev, pc, [h0, h1, h2, h3, h4, h5, h6, h7, h8, h9, h10, h11, h12, h13, h14], st)
    else
      (h.start_of_first_evlr, h.number_of_evlrs, legacy_point_count,
       [lh0, lh1, lh2, lh3, lh4, 0, 0, 0, 0, 0, 0, 0, 0, 0, 0], st)
  let current_pos : Except LaspyErr Nat :=
    if seekable then .ok st.pos
    else match LAS_HEADERS_SIZE version with
      | none => .error .unsupportedVersion
      | some s => .ok s
  match current_pos with
  | .error e => .error e
  | .ok cur =>
  let step : Except LaspyErr (List Nat × RSt) :=
    if cur < header_size then
      let (extra, st) := rd (header_size - cur) st
      .ok (extra, st)
    else if cur > header_size then .error .incoherentHeaderSize
    else .ok ([], st)
  match step with
  | .error e => .error e
  | .ok (extra_header_bytes, st) =>
  match vlrListReadFrom number_of_vlrs st with
  | .error e => .error e
  | .ok (vlrs, st) =>
  let gap : Except LaspyErr (List Nat × RSt) :=
    if seekable then
      if st.pos < offset_to_point_data then
        let (extra, st) := rd (offset_to_point_data - st.pos) st
        .ok (extra, st)
      else if st.pos > offset_to_point_data then .error .incoherentOffset
      else .ok ([], st)
    else .ok ([], st)
  match gap with
  | .error e => .error e
  | .ok (extra_vlr_bytes, _) =>
    .ok ({ h with
            file_source_id := file_source_id
            global_encoding := ⟨ge_value⟩
            uuid := uuid
            version := version
            system_identifier := rstripZeros sysid_raw
            generating_software := rstripZeros gensw_raw
            creation_date := dateFromYdayYear creation_day_of_year creation_year
            point_count := point_count
            scales := [sc0, sc1, sc2]
            offsets := [of0, of1, of2]
            maxs := [mx0, mx1, mx2]
            mins := [mn0, mn1, mn2]
            number_of_points_by_return := hist
            vlrs := vlrs
            extra_header_bytes := extra_header_bytes
            extra_vlr_bytes := extra_vlr_bytes
            start_of_waveform_data_packet_record := start_of_waveform
            start_of_first_evlr := start_of_first_evlr
            number_of_evlrs := number_of_evlrs
            offset_to_point_data := offset_to_point_data },
          point_format_id, point_size)

/-- Model of `LasHeader.read_from(stream, seekable)`: the preamble parse
followed by the point-format reconciliation; `today` is the `date.today()`
consulted by the `cls()` default construction (every field it initializes
is overwritten by parsed data except the point format, replaced during
reconciliation). -/
def LasHeader.read_from (data : List Nat) (seekable : Bool) (today : Date) :
    Except LaspyErr LasHeader :=
  match readPreamble data seekable today with
  | .error e => .error e
  | .ok (h, point_format_id, point_size) =>
    match reconcileFormat point_format_id point_size h.vlrs with
    | .error e => .error e
    | .ok (point_format, vlrs) =>
      .ok { h with
              are_points_compressed := is_point_format_compressed point_format_id
              vlrs := vlrs
              point_format := point_format }

/-! ### Well-formedness predicates

These collect the representability side conditions under which the binary
writer is exact (every field fits its on-disk width, fixed-size arrays have
their fixed length, strings survive NUL-padding) — the conditions every
header built and mutated through the public API satisfies. -/

def ExtraDimWF (d : ExtraDim) : Prop :=
  d.name.length ≤ 32 ∧ d.name.getLast? ≠ some 0 ∧
  d.description.length ≤ 32 ∧ d.description.getLast? ≠ some 0 ∧
  1 ≤ d.num_elements ∧ d.num_elements < 256 ∧
  (d.num_elements ≤ 3 ∨ d.kind = ElemKind.u1) ∧
  (∀ sc, d.scales = some sc →
    sc.length = d.num_elements ∧ d.num_elements ≤ 3 ∧ ∀ x ∈ sc, x < 2 ^ 64) ∧
  (∀ os, d.offsets = some os →
    os.length = d.num_elements ∧ d.num_elements ≤ 3 ∧ ∀ x ∈ os, x < 2 ^ 64)

instance (d : ExtraDim) : Decidable (ExtraDimWF d) := by
  unfold ExtraDimWF; infer_instance

def EbStructWF (s : ExtraBytesStruct) : Prop :=
  s.reserved < 65536 ∧ s.flags < 256 ∧ s.data_type < 256 ∧ s.options < 256 ∧
  s.name.length ≤ 32 ∧ s.name.getLast? ≠ some 0 ∧
  s.reserved2 < 4294967296 ∧
  s.scale.length = 3 ∧ (∀ x ∈ s.scale, x < 2 ^ 64) ∧
  s.offset.length = 3 ∧ (∀ x ∈ s.offset, x < 2 ^ 64) ∧
  s.description.length ≤ 32 ∧ s.description.getLast? ≠ some 0

instance (s : ExtraBytesStruct) : Decidable (EbStructWF s) := by
  unfold EbStructWF; infer_instance

def VLRRecordWF : VLRRecord → Prop
  | .eb structs => structs.length < 65536 ∧ ∀ s ∈ structs, EbStructWF s
  | .other tag payload => tag < 65536 ∧ payload.length < 65536

instance (r : VLRRecord) : Decidable (VLRRecordWF r) := by
  unfold VLRRecordWF; cases r <;> infer_instance

/-- Invariant 3 of the spec's data model: the VLR container holds at most
one Extra-Bytes VLR, present exactly when the point format's
extra-dimension list is non-empty, and its content is the exact encoding
of that list. -/
def ebSyncOk (h : LasHeader) : Prop :=
  h.vlrs.filter isEbRecord =
    if h.point_format.extra_dimensions.isEmpty then []
    else [VLRRecord.eb (h.point_format.extra_dimensions.map ebStructOfDim)]

instance (h : LasHeader) : Decidable (ebSyncOk h) := by
  unfold ebSyncOk; infer_instance

/-- The whole-header well-formedness used by the write/read round-trip
claim: the supported versions, a compatible point format, every scalar in
range of its on-disk width, fixed arrays of their fixed lengths, strings
that survive padding, the synchronized Extra-Bytes VLR, and the version-
gated fields zero below the version that persists them. -/
def LasHeaderWF (h : LasHeader) : Prop :=
  (h.version = ⟨1, 1⟩ ∨ h.version = ⟨1, 2⟩ ∨ h.version = ⟨1, 3⟩ ∨ h.version = ⟨1, 4⟩) ∧
  isCompatible h.point_format.id h.version = true ∧
  h.point_format.id ≤ 10 ∧
  h.file_source_id < 65536 ∧
  h.global_encoding.value < 65536 ∧
  h.uuid.length = 16 ∧
  h.system_identifier.length ≤ 32 ∧ h.system_identifier.getLast? ≠ some 0 ∧
  h.generating_software.length ≤ 32 ∧ h.generating_software.getLast? ≠ some 0 ∧
  OptDateWF h.creation_date ∧
  h.point_count < 18446744073709551616 ∧
  (h.version.minor < 4 → h.point_count < 4294967296) ∧
  h.scales.length = 3 ∧ (∀ x ∈ h.scales, x < 2 ^ 64) ∧
  h.offsets.length = 3 ∧ (∀ x ∈ h.offsets, x < 2 ^ 64) ∧
  h.maxs.length = 3 ∧ (∀ x ∈ h.maxs, x < 2 ^ 64) ∧
  h.mins.length = 3 ∧ (∀ x ∈ h.mins, x < 2 ^ 64) ∧
  h.number_of_points_by_return.length = 15 ∧
  (∀ x ∈ h.number_of_points_by_return, x < 4294967296) ∧
  (h.version.minor < 4 → h.number_of_points_by_return.drop 5 = List.replicate 10 0) ∧
  (∀ r ∈ h.vlrs, VLRRecordWF r) ∧
  h.vlrs.length < 4294967296 ∧
  (vlrsToBytes h.vlrs).length + 375 < 4294967296 ∧
  ebSyncOk h ∧
  (∀ d ∈ h.point_format.extra_dimensions, ExtraDimWF d) ∧
  h.point_format.size < 65536 ∧
  h.extra_header_bytes = [] ∧
  h.extra_vlr_bytes = [] ∧
  (h.version.minor < 3 → h.start_of_waveform_data_packet_record = 0) ∧
  h.start_of_waveform_data_packet_record < 18446744073709551616 ∧
  (h.version.minor < 4 → h.start_of_first_evlr = 0 ∧ h.number_of_evlrs = 0) ∧
  h.start_of_first_evlr < 18446744073709551616 ∧
  h.number_of_evlrs < 4294967296

instance (h : LasHeader) : Decidable (LasHeaderWF h) := by
  unfold LasHeaderWF; infer_instance

/-- The point format `read_from` resolves before its final size check: the
base format of the canonical id, extended by the decoded Extra-Bytes
descriptors unless the declared point size already matches the base size
(the spurious-VLR case).  `none` when the base id is unknown or a
sub-record does not decode. -/
def resolvedPointFormat (point_format_id point_size : Nat)
    (vlrs : List VLRRecord) : Option PointFormat :=
  match basePointFormatSize (compressed_id_to_uncompressed point_format_id) with
  | none => none
  | some _ =>
    match firstEbStructs vlrs with
    | none => some (⟨compressed_id_to_uncompressed point_format_id, []⟩ : PointFormat)
    | some structs =>
      match dimsOfEbStructs structs with
      | none => none
      | some extra_dims =>
        if point_size = (⟨compressed_id_to_uncompressed point_format_id, []⟩ : PointFormat).size then
          some (⟨compressed_id_to_uncompressed point_format_id, []⟩ : PointFormat)
        else
          some (extra_dims.foldl PointFormat.add_extra_dimension
                  ⟨compressed_id_to_uncompressed point_format_id, []⟩)

/-! ### Concrete sample data used by counterexamples and witnesses -/

def sampleDate : Date := ⟨2026, 285⟩

/-- A one-byte unsigned extra dimension named "a". -/
def exDimU1 : ExtraDim :=
  { name := [97], description := [], num_elements := 1, kind := ElemKind.u1,
    scales := none, offsets := none }

/-- The canonical sub-record for `exDimU1`, except that its `options` byte
is 7 instead of 0 — a value the synchronizer never produces for a non-zero
data-type tag. -/
def bogusEbStruct : ExtraBytesStruct :=
  { ebStructOfDim exDimU1 with options := 7 }

/-- A version 1.2, point-format 0 header whose point format carries
`exDimU1` but whose Extra-Bytes VLR holds the non-canonical sub-record. -/
def headerWithBogusEb : LasHeader :=
  { freshHeader ⟨1, 2⟩ ⟨0, [exDimU1]⟩ sampleDate with vlrs := [.eb [bogusEbStruct]] }

/-- The serialized stream of `headerWithBogusEb`. -/
def bogusStream : List Nat :=
  match (headerWithBogusEb.write_to sampleDate true).2 with
  | .ok bs => bs
  | .error _ => []

/-- A default header without a creation date. -/
def headerNoDate : LasHeader :=
  { freshHeader ⟨1, 2⟩ ⟨3, []⟩ sampleDate with creation_date := none }

/-- A fresh 1.4 header with point format 6. -/
def header14 : LasHeader := freshHeader ⟨1, 4⟩ ⟨6, []⟩ sampleDate

/-- The serialized stream of `header14`. -/
def bytes14 : List Nat :=
  match (header14.write_to sampleDate true).2 with
  | .ok bs => bs
  | .error _ => []

/-- The header state after the mutations `write_to` performs (`hs` is the
fixed header size of the version): an absent creation date is replaced by
today's date, and writing VLRs recomputes the point-data offset. -/
def writeMutated (h : LasHeader) (today : Date) (wv : Bool) (hs : Nat) : LasHeader :=
  { h with
      creation_date := if h.creation_date.isNone then some today
                       else h.creation_date
      offset_to_point_data := if wv then hs + (vlrsToBytes h.vlrs).length
                              else h.offset_to_point_data }

/-- The preamble parse of `bogusStream` (header, raw format id, declared
point size); the fallback branch is unreachable. -/
def c7pre : LasHeader × Nat × Nat :=
  match readPreamble bogusStream true sampleDate with
  | .ok x => x
  | .error _ => (headerWithBogusEb, 0, 0)

def c7h : LasHeader := c7pre.1

def c7pfid : Nat := c7pre.2.1

def c7psize : Nat := c7pre.2.2

def c7pf : PointFormat :=
  (resolvedPointFormat c7pfid c7psize c7h.vlrs).getD ⟨0, []⟩

/-! ## Theorems -/

@[simp] theorem toBytesLE_length (w n : Nat) : (toBytesLE w n).length = w := by
  induction w generalizing n with
  | zero => rfl
  | succ w ih => simp [toBytesLE, ih]

theorem fromBytesLE_toBytesLE (w n : Nat) :
    fromBytesLE (toBytesLE w n) = n % 2 ^ (8 * w) := by
  induction w generalizing n with
  | zero => simp [toBytesLE, fromBytesLE, Nat.mod_one]
  | succ w ih =>
    have h256 : (2 : Nat) ^ (8 * (w + 1)) = 256 * 2 ^ (8 * w) := by
      rw [Nat.mul_add, pow_add]; ring
    rw [toBytesLE, fromBytesLE, ih, h256, Nat.mod_mul]

theorem fromBytesLE_toBytesLE_of_lt {w n : Nat} (h : n < 2 ^ (8 * w)) :
    fromBytesLE (toBytesLE w n) = n := by
  rw [fromBytesLE_toBytesLE, Nat.mod_eq_of_lt h]

@[simp] theorem rstripZeros_append_zeros (l : List Nat) (k : Nat) :
    rstripZeros (l ++ List.replicate k 0) = rstripZeros l := by
  unfold rstripZeros
  rw [List.reverse_append, List.reverse_replicate]
  congr 1
  induction k with
  | zero => simp
  | succ k ih =>
    rw [List.replicate_succ, List.cons_append, List.dropWhile_cons, if_pos (by simp)]
    exact ih

theorem rstripZeros_eq_self {l : List Nat} (h : l.getLast? ≠ some 0) :
    rstripZeros l = l := by
  unfold rstripZeros
  cases hl : l.reverse with
  | nil =>
    have : l = [] := by simpa using congrArg List.reverse hl
    simp [this]
  | cons a t =>
    have ha : l.getLast? = some a := by
      rw [← List.reverse_reverse l, hl, List.getLast?_reverse]
      simp
    have hne : a ≠ 0 := fun h0 => h (by rw [ha, h0])
    rw [List.dropWhile_cons, if_neg (by simp [hne]), ← hl, List.reverse_reverse]

theorem encodeStr32_length (s : List Nat) : (encodeStr32 s).length = 32 := by
  unfold encodeStr32
  split
  · rw [List.length_take]; omega
  · rw [List.length_append, List.length_replicate]; omega

theorem rstripZeros_encodeStr32 {s : List Nat} (hlen : s.length ≤ 32)
    (hlast : s.getLast? ≠ some 0) : rstripZeros (encodeStr32 s) = s := by
  unfold encodeStr32
  rw [if_neg (by omega), rstripZeros_append_zeros, rstripZeros_eq_self hlast]

theorem rd_exact {bs : List Nat} {n : Nat} (rest : List Nat) (p : Nat)
    (h : bs.length = n) : rd n ⟨bs ++ rest, p⟩ = (bs, ⟨rest, p + n⟩) := by
  subst h
  unfold rd
  rw [List.take_left, List.drop_left]
  congr 2
  simp only [List.length_append]
  omega

theorem rdInt_exact {w v : Nat} (rest : List Nat) (p : Nat)
    (h : v < 2 ^ (8 * w)) :
    rdInt w ⟨toBytesLE w v ++ rest, p⟩ = (v, ⟨rest, p + w⟩) := by
  unfold rdInt
  rw [rd_exact rest p (toBytesLE_length w v)]
  simp [fromBytesLE_toBytesLE_of_lt h]

theorem dateFromYdayYear_roundtrip {d : Date} (h : DateWF d) :
    dateFromYdayYear d.yday d.year = some d := by
  obtain ⟨h1, h2, h3, h4⟩ := h
  unfold dateFromYdayYear rollDate
  rw [if_neg (by omega), if_neg (by omega), if_neg (by omega), if_pos h4]

/-- C1: the claim says every flag setter leaves bits outside the flag's mask
unchanged AND that reading the flag immediately after setting it to `v`
returns `v`, the `gps_time_type` setter behaving as clear-then-OR.  The code
instead implements "clear" as XOR (`_unset_bit` is `self.value ^= mask`, and
the `gps_time_type` setter starts with `self.value ^= MASK`), so writing
value 0 (`WEEK_TIME`) into an already-clear GPS-time-type flag toggles the
bit ON: the raw value becomes 1 and the flag reads back 1 (`STANDARD`).
Likewise setting `waveform_data_packets_internal` to `False` on a zero
register makes it read back `True`.  This theorem evaluates the code at
those failing inputs. -/
theorem gps_time_type_setter_toggles_instead_of_clearing :
    (GlobalEncoding.set_gps_time_type ⟨0⟩ 0).value = 1 ∧
    (GlobalEncoding.set_gps_time_type ⟨0⟩ 0).gps_time_type = 1 ∧
    (GlobalEncoding.set_waveform_data_packets_internal ⟨0⟩ false).waveform_data_packets_internal = true := by
  decide

/-! ### Helper lemmas about the synchronizer and constructors -/

theorem filter_eb_of_filter_not (l : List VLRRecord) :
    (l.filter fun r => ! isEbRecord r).filter isEbRecord = [] := by
  induction l with
  | nil => rfl
  | cons r t ih => cases r <;> simp [List.filter_cons, isEbRecord, ih]

theorem ebSyncOk_sync (h : LasHeader) : ebSyncOk h.sync_extra_bytes_vlr := by
  unfold ebSyncOk LasHeader.sync_extra_bytes_vlr
  by_cases hd : h.point_format.extra_dimensions.isEmpty = true
  · simp [hd, filter_eb_of_filter_not]
  · simp [hd, List.filter_append, filter_eb_of_filter_not, isEbRecord]

theorem sync_exists_vlrs (h : LasHeader) :
    ∃ nv, h.sync_extra_bytes_vlr = { h with vlrs := nv } := by
  simp only [LasHeader.sync_extra_bytes_vlr]
  split
  · exact ⟨_, rfl⟩
  · exact ⟨_, rfl⟩

theorem mkLasHeader_ok {ov : Option Version} {opf : Option PointFormat}
    {today : Date} {h' : LasHeader} (hm : mkLasHeader ov opf today = .ok h') :
    ∃ v pf, h' = freshHeader v pf today := by
  unfold mkLasHeader at hm
  rcases ov with _ | v <;> rcases opf with _ | pf
  · simp only [] at hm
    split at hm
    · exact ⟨_, _, (Except.ok.inj hm).symm⟩
    · exact Except.noConfusion hm
  · simp only [] at hm
    rcases hp : preferredVersionForPointFormat pf.id with _ | pv <;>
      rw [hp] at hm <;> simp only [] at hm
    · exact Except.noConfusion hm
    · split at hm
      · exact ⟨_, _, (Except.ok.inj hm).symm⟩
      · exact Except.noConfusion hm
  · simp only [] at hm
    rcases hp : minPointFormatForVersion v with _ | fid <;>
      rw [hp] at hm <;> simp only [] at hm
    · exact Except.noConfusion hm
    · split at hm
      · exact ⟨_, _, (Except.ok.inj hm).symm⟩
      · exact Except.noConfusion hm
  · simp only [] at hm
    split at hm
    · exact ⟨_, _, (Except.ok.inj hm).symm⟩
    · exact Except.noConfusion hm

theorem getD_replicate_zero (n i : Nat) : (List.replicate n 0).getD i 0 = 0 := by
  induction n generalizing i with
  | zero => cases i <;> rfl
  | succ n ih =>
    cases i with
    | zero => rfl
    | succ i =>
      simp only [List.replicate_succ, List.getD_cons_succ]
      exact ih i

set_option maxRecDepth 100000 in
/-- C3 counterexample: the claim includes `update()` among the mutations
that keep histogram slots 5-14 zero under a version < 1.4, but feeding one
point with return number 6 into a fresh 1.2 header puts 1 into slot 5. -/
theorem update_breaks_high_slot_invariant :
    ((freshHeader ⟨1, 2⟩ ⟨3, []⟩ sampleDate).update [0, 0, 0] [0, 0, 0]
        ⟨[6]⟩).version.minor < 4 ∧
    ((freshHeader ⟨1, 2⟩ ⟨3, []⟩ sampleDate).update [0, 0, 0] [0, 0, 0]
        ⟨[6]⟩).number_of_points_by_return.getD 5 0 = 1 := by
  decide

/-- C3 (amended): after construction and after `partial_reset` every
histogram slot with index at least 5 is zero, and the `version` setter
never modifies the histogram (so it preserves the property); `update`,
excluded from the amended claim, can populate those slots even when the
active version minor is below 4 (see the counterexample). -/
theorem high_histogram_slots_after_mutations :
    (∀ (ov : Option Version) (opf : Option PointFormat) (today : Date)
        (h' : LasHeader), mkLasHeader ov opf today = .ok h' →
        ∀ i, 5 ≤ i → h'.number_of_points_by_return.getD i 0 = 0) ∧
    (∀ (h : LasHeader) (today : Date) (i : Nat), 5 ≤ i →
        (h.partial_reset today).number_of_points_by_return.getD i 0 = 0) ∧
    (∀ (h : LasHeader) (v : Version) (h' : LasHeader), h.set_version v = .ok h' →
        h'.number_of_points_by_return = h.number_of_points_by_return) := by
  refine ⟨?_, ?_, ?_⟩
  · intro ov opf today h' hm i _
    obtain ⟨v, pf, rfl⟩ := mkLasHeader_ok hm
    unfold freshHeader
    obtain ⟨nv, heq⟩ := sync_exists_vlrs _
    rw [heq]
    exact getD_replicate_zero 15 i
  · intro h today i _
    exact getD_replicate_zero 15 i
  · intro h v h' hs
    unfold LasHeader.set_version at hs
    split at hs
    · injection hs with hh
      rw [← hh]
    · exact absurd hs (by simp)

/-- Witness for the amended C3 statement at concrete inputs. -/
theorem high_histogram_slots_after_mutations_witness :
    (freshHeader ⟨1, 2⟩ ⟨3, []⟩ sampleDate).number_of_points_by_return.getD 5 0 = 0 ∧
    ((freshHeader ⟨1, 2⟩ ⟨3, []⟩ sampleDate).partial_reset
        sampleDate).number_of_points_by_return.getD 6 0 = 0 ∧
    ({ freshHeader ⟨1, 2⟩ ⟨3, []⟩ sampleDate with
        version := ⟨1, 3⟩ } : LasHeader).number_of_points_by_return =
      (freshHeader ⟨1, 2⟩ ⟨3, []⟩ sampleDate).number_of_points_by_return :=
  ⟨high_histogram_slots_after_mutations.1 none none sampleDate _ rfl 5 (by norm_num),
   high_histogram_slots_after_mutations.2.1 (freshHeader ⟨1, 2⟩ ⟨3, []⟩ sampleDate)
     sampleDate 6 (by norm_num),
   high_histogram_slots_after_mutations.2.2 (freshHeader ⟨1, 2⟩ ⟨3, []⟩ sampleDate)
     ⟨1, 3⟩ _ rfl⟩

set_option maxRecDepth 1000000 in
/-- C4 counterexample: a stream whose Extra-Bytes VLR carries a sub-record
the synchronizer would never emit (non-zero `options` with a non-zero type
tag).  `read_from` succeeds, applies the decoded descriptor, and keeps the
VLR verbatim, so the resulting header's Extra-Bytes VLR is not the exact
encoding of its point format's extra-dimension list. -/
theorem read_from_keeps_noncanonical_eb_vlr :
    (LasHeader.read_from bogusStream true sampleDate).toOption.map
      (fun h => decide (ebSyncOk h)) = some false := by
  decide

/-- C4 (amended): after construction, after assigning the `point_format`
property, and after `add_extra_dims`, the VLR list contains at most one
Extra-Bytes VLR, present exactly when the point format's extra-dimension
list is non-empty, and its sub-records are exactly the described encoding
of that list in order (`ebSyncOk`).  `read_from`, excluded from the
amended claim, stores the stream's Extra-Bytes VLR verbatim, which need
not be the canonical encoding (see the counterexample). -/
theorem eb_vlr_sync_after_mutations :
    (∀ (ov : Option Version) (opf : Option PointFormat) (today : Date)
        (h' : LasHeader), mkLasHeader ov opf today = .ok h' → ebSyncOk h') ∧
    (∀ (h : LasHeader) (f : PointFormat) (h' : LasHeader),
        h.set_point_format f = .ok h' → ebSyncOk h') ∧
    (∀ (h : LasHeader) (params : List ExtraDim), ebSyncOk (h.add_extra_dims params)) := by
  refine ⟨?_, ?_, ?_⟩
  · intro ov opf today h' hm
    obtain ⟨v, pf, rfl⟩ := mkLasHeader_ok hm
    exact ebSyncOk_sync _
  · intro h f h' hs
    unfold LasHeader.set_point_format at hs
    split at hs
    · injection hs with hh
      rw [← hh]
      exact ebSyncOk_sync _
    · exact absurd hs (by simp)
  · intro h params
    exact ebSyncOk_sync _

/-- Witness for the amended C4 statement at concrete inputs. -/
theorem eb_vlr_sync_after_mutations_witness :
    ebSyncOk (freshHeader ⟨1, 2⟩ ⟨3, []⟩ sampleDate) ∧
    ebSyncOk ((freshHeader ⟨1, 2⟩ ⟨3, []⟩ sampleDate).add_extra_dims [exDimU1]) :=
  ⟨eb_vlr_sync_after_mutations.1 none none sampleDate _ rfl,
   eb_vlr_sync_after_mutations.2.2 (freshHeader ⟨1, 2⟩ ⟨3, []⟩ sampleDate) [exDimU1]⟩

/-- C5: assigning an incompatible point format or version, or constructing
with an incompatible pair, fails with the incompatibility error and (the
validation happening before any assignment) leaves the header unchanged;
compatible assignments succeed, replace exactly the targeted field, and
the point-format setter additionally resynchronizes the Extra-Bytes VLR. -/
theorem compatibility_gate (h : LasHeader) (f pf0 : PointFormat) (v v0 : Version)
    (today : Date) :
    (isCompatible f.id h.version = false →
        h.set_point_format f = .error .incompatibleFormat) ∧
    (isCompatible f.id h.version = true →
        ∃ h', h.set_point_format f = .ok h' ∧ h'.point_format = f ∧ ebSyncOk h' ∧
          h'.version = h.version ∧ h'.file_source_id = h.file_source_id ∧
          h'.global_encoding = h.global_encoding ∧ h'.uuid = h.uuid ∧
          h'.system_identifier = h.system_identifier ∧
          h'.generating_software = h.generating_software ∧
          h'.creation_date = h.creation_date ∧ h'.point_count = h.point_count ∧
          h'.scales = h.scales ∧ h'.offsets = h.offsets ∧ h'.maxs = h.maxs ∧
          h'.mins = h.mins ∧
          h'.number_of_points_by_return = h.number_of_points_by_return ∧
          h'.extra_header_bytes = h.extra_header_bytes ∧
          h'.extra_vlr_bytes = h.extra_vlr_bytes ∧
          h'.start_of_waveform_data_packet_record =
            h.start_of_waveform_data_packet_record ∧
          h'.start_of_first_evlr = h.start_of_first_evlr ∧
          h'.number_of_evlrs = h.number_of_evlrs ∧
          h'.offset_to_point_data = h.offset_to_point_data ∧
          h'.are_points_compressed = h.are_points_compressed) ∧
    (isCompatible h.point_format.id v = false →
        h.set_version v = .error .incompatibleFormat) ∧
    (isCompatible h.point_format.id v = true →
        h.set_version v = .ok { h with version := v }) ∧
    (isCompatible pf0.id v0 = false →
        mkLasHeader (some v0) (some pf0) today = .error .incompatibleFormat) ∧
    (isCompatible pf0.id v0 = true →
        mkLasHeader (some v0) (some pf0) today = .ok (freshHeader v0 pf0 today)) := by
  refine ⟨?_, ?_, ?_, ?_, ?_, ?_⟩
  · intro hc
    unfold LasHeader.set_point_format
    rw [if_neg (by simp [hc])]
  · intro hc
    unfold LasHeader.set_point_format
    rw [if_pos (by simp [hc])]
    obtain ⟨nv, heq⟩ := sync_exists_vlrs { h with point_format := f }
    refine ⟨_, rfl, ?_, ebSyncOk_sync _, ?_⟩
    · rw [heq]
    · rw [heq]
      exact ⟨rfl, rfl, rfl, rfl, rfl, rfl, rfl, rfl, rfl, rfl, rfl, rfl, rfl,
        rfl, rfl, rfl, rfl, rfl, rfl, rfl⟩
  · intro hc
    unfold LasHeader.set_version
    rw [if_neg (by simp [hc])]
  · intro hc
    unfold LasHeader.set_version
    rw [if_pos (by simp [hc])]
  · intro hc
    unfold mkLasHeader
    simp only []
    rw [if_neg (by simp [hc])]
  · intro hc
    unfold mkLasHeader
    simp only []
    rw [if_pos (by simp [hc])]

/-- Witness for C5 at concrete inputs: format 6 is incompatible with 1.2,
format 0 is compatible with 1.3. -/
theorem compatibility_gate_witness :
    (freshHeader ⟨1, 2⟩ ⟨3, []⟩ sampleDate).set_point_format ⟨6, []⟩ =
      .error .incompatibleFormat ∧
    (freshHeader ⟨1, 2⟩ ⟨3, []⟩ sampleDate).set_version ⟨1, 3⟩ =
      .ok { freshHeader ⟨1, 2⟩ ⟨3, []⟩ sampleDate with version := ⟨1, 3⟩ } ∧
    mkLasHeader (some ⟨1, 2⟩) (some ⟨6, []⟩) sampleDate =
      .error .incompatibleFormat ∧
    mkLasHeader (some ⟨1, 3⟩) (some ⟨0, []⟩) sampleDate =
      .ok (freshHeader ⟨1, 3⟩ ⟨0, []⟩ sampleDate) :=
  ⟨(compatibility_gate (freshHeader ⟨1, 2⟩ ⟨3, []⟩ sampleDate) ⟨6, []⟩ ⟨6, []⟩
      ⟨1, 3⟩ ⟨1, 2⟩ sampleDate).1 (by decide),
   (compatibility_gate (freshHeader ⟨1, 2⟩ ⟨3, []⟩ sampleDate) ⟨6, []⟩ ⟨6, []⟩
      ⟨1, 3⟩ ⟨1, 2⟩ sampleDate).2.2.2.1 (by decide),
   (compatibility_gate (freshHeader ⟨1, 2⟩ ⟨3, []⟩ sampleDate) ⟨6, []⟩ ⟨6, []⟩
      ⟨1, 3⟩ ⟨1, 2⟩ sampleDate).2.2.2.2.1 (by decide),
   (compatibility_gate (freshHeader ⟨1, 2⟩ ⟨3, []⟩ sampleDate) ⟨6, []⟩ ⟨0, []⟩
      ⟨1, 3⟩ ⟨1, 3⟩ sampleDate).2.2.2.2.2 (by decide)⟩

/-- C8: folding the batch with return numbers `{0, 1, 1, 2, 5}` into a
fresh header leaves the histogram with 2 in slot 0, 1 in slot 1, 1 in slot
4, zero in every other slot (return number 0 counted nowhere), and raises
the point count from 0 to 5.  The new max/min vectors, being the result of
floating-point folds, are universally quantified. -/
theorem update_histogram_of_sample_batch (new_maxs new_mins : List Nat) (today : Date) :
    (freshHeader ⟨1, 2⟩ ⟨3, []⟩ today).number_of_points_by_return =
      [0, 0, 0, 0, 0, 0, 0, 0, 0, 0, 0, 0, 0, 0, 0] ∧
    (freshHeader ⟨1, 2⟩ ⟨3, []⟩ today).point_count = 0 ∧
    ((freshHeader ⟨1, 2⟩ ⟨3, []⟩ today).update new_maxs new_mins
        ⟨[0, 1, 1, 2, 5]⟩).number_of_points_by_return =
      [2, 1, 0, 0, 1, 0, 0, 0, 0, 0, 0, 0, 0, 0, 0] ∧
    ((freshHeader ⟨1, 2⟩ ⟨3, []⟩ today).update new_maxs new_mins
        ⟨[0, 1, 1, 2, 5]⟩).point_count = 5 :=
  ⟨rfl, rfl, rfl, rfl⟩

set_option maxRecDepth 100000 in
/-- C9 counterexample: the claim says `partial_reset` changes nothing
outside the listed statistics fields, but the source also assigns
`creation_date = date.today()`: resetting a header created on an earlier
date changes its creation date. -/
theorem partial_reset_changes_creation_date :
    ((freshHeader ⟨1, 2⟩ ⟨3, []⟩ ⟨2019, 32⟩).partial_reset sampleDate).creation_date ≠
      (freshHeader ⟨1, 2⟩ ⟨3, []⟩ ⟨2019, 32⟩).creation_date := by
  decide

/-- C9 (amended): `partial_reset` zeroes the point count, the max and min
vectors, all 15 histogram slots, the first-EVLR offset and the EVLR count,
sets the creation date to the current date, and changes nothing else. -/
theorem partial_reset_fields (h : LasHeader) (today : Date) :
    (h.partial_reset today).point_count = 0 ∧
    (h.partial_reset today).maxs = [0, 0, 0] ∧
    (h.partial_reset today).mins = [0, 0, 0] ∧
    (h.partial_reset today).number_of_points_by_return.length = 15 ∧
    (∀ i, (h.partial_reset today).number_of_points_by_return.getD i 0 = 0) ∧
    (h.partial_reset today).start_of_first_evlr = 0 ∧
    (h.partial_reset today).number_of_evlrs = 0 ∧
    (h.partial_reset today).creation_date = some today ∧
    (h.partial_reset today).file_source_id = h.file_source_id ∧
    (h.partial_reset today).global_encoding = h.global_encoding ∧
    (h.partial_reset today).uuid = h.uuid ∧
    (h.partial_reset today).version = h.version ∧
    (h.partial_reset today).system_identifier = h.system_identifier ∧
    (h.partial_reset today).generating_software = h.generating_software ∧
    (h.partial_reset today).point_format = h.point_format ∧
    (h.partial_reset today).scales = h.scales ∧
    (h.partial_reset today).offsets = h.offsets ∧
    (h.partial_reset today).vlrs = h.vlrs ∧
    (h.partial_reset today).extra_header_bytes = h.extra_header_bytes ∧
    (h.partial_reset today).extra_vlr_bytes = h.extra_vlr_bytes ∧
    (h.partial_reset today).start_of_waveform_data_packet_record =
      h.start_of_waveform_data_packet_record ∧
    (h.partial_reset today).offset_to_point_data = h.offset_to_point_data ∧
    (h.partial_reset today).are_points_compressed = h.are_points_compressed :=
  ⟨rfl, rfl, rfl, rfl, fun i => getD_replicate_zero 15 i, rfl, rfl, rfl, rfl,
   rfl, rfl, rfl, rfl, rfl, rfl, rfl, rfl, rfl, rfl, rfl, rfl, rfl, rfl⟩

/-- Witness for the amended C9 statement at a concrete input. -/
theorem partial_reset_fields_witness :
    ((headerNoDate.partial_reset sampleDate).point_count = 0) ∧
    ((headerNoDate.partial_reset sampleDate).creation_date = some sampleDate) ∧
    ((headerNoDate.partial_reset sampleDate).number_of_points_by_return.getD 7 0 = 0) ∧
    ((headerNoDate.partial_reset sampleDate).vlrs = headerNoDate.vlrs) :=
  ⟨(partial_reset_fields headerNoDate sampleDate).1,
   (partial_reset_fields headerNoDate sampleDate).2.2.2.2.2.2.2.1,
   (partial_reset_fields headerNoDate sampleDate).2.2.2.2.1 7,
   (partial_reset_fields headerNoDate sampleDate).2.2.2.2.2.2.2.2.2.2.2.2.2.2.2.2.2.1⟩

/-- C10: `write_to` mutates the header object: with `write_vlrs = True` it
assigns `offset_to_point_data` to be the per-version fixed header size
plus the byte length of the serialized VLR list, and whenever
`creation_date` is absent it fills it with the current date; both survive
the call (the result's first component is the post-call header state). -/
theorem write_to_mutations (h : LasHeader) (today : Date) (wv : Bool) (hs : Nat)
    (hsize : LAS_HEADERS_SIZE h.version = some hs) :
    ((h.write_to today wv).1.offset_to_point_data =
      if wv then hs + (vlrsToBytes h.vlrs).length else h.offset_to_point_data) ∧
    ((h.write_to today wv).1.creation_date =
      if h.creation_date.isNone then some today else h.creation_date) := by
  unfold LasHeader.write_to
  by_cases hcd : h.creation_date.isNone = true
  all_goals
    simp only [hcd, if_true, if_false, Bool.false_eq_true, hsize]
    cases wv
  all_goals
    simp only [Bool.false_eq_true, if_true, if_false, hsize]
    split
  all_goals simp_all [Option.isNone_iff_eq_none]

/-- Witness for C10 at a concrete input: a 1.2 header (fixed size 227, no
VLRs) without a creation date. -/
theorem write_to_mutations_witness :
    ((headerNoDate.write_to sampleDate true).1.offset_to_point_data =
      if true then 227 + (vlrsToBytes headerNoDate.vlrs).length
      else headerNoDate.offset_to_point_data) ∧
    ((headerNoDate.write_to sampleDate true).1.creation_date =
      if headerNoDate.creation_date.isNone then some sampleDate
      else headerNoDate.creation_date) :=
  write_to_mutations headerNoDate sampleDate true 227 rfl

/-! ### The write path in normal form -/

theorem drop_of_append {α : Type} {a : List α} {n : Nat} (b : List α)
    (h : a.length = n) : (a ++ b).drop n = b := by
  subst h; exact List.drop_left a b

theorem take_of_append {α : Type} {a : List α} {n : Nat} (b : List α)
    (h : a.length = n) : (a ++ b).take n = a := by
  subst h; exact List.take_left a b

theorem fixedPrefixBytes_length (h : LasHeader) (hs : Nat)
    (hu : h.uuid.length = 16) : (fixedPrefixBytes h hs).length = 107 := by
  simp [fixedPrefixBytes, lasFileSignature, encodeStr32_length, hu]

theorem countSectionBytes_length (h : LasHeader) :
    (countSectionBytes h).length = 24 := by
  unfold countSectionBytes
  split <;> simp

theorem coordsSectionBytes_length (h : LasHeader) :
    (coordsSectionBytes h).length = 96 := by
  simp [coordsSectionBytes]

theorem waveformSectionBytes_length_of (h : LasHeader)
    (hv : 3 ≤ h.version.minor) : (waveformSectionBytes h).length = 8 := by
  unfold waveformSectionBytes
  rw [if_pos hv]
  simp

theorem countSectionBytes_of_v4 (h : LasHeader) (hv : 4 ≤ h.version.minor) :
    countSectionBytes h = List.replicate 24 0 := by
  unfold countSectionBytes
  rw [if_pos hv]

theorem evlrSectionBytes_of_v4 (h : LasHeader) (hv : 4 ≤ h.version.minor) :
    evlrSectionBytes h =
      toBytesLE 8 h.start_of_first_evlr ++
      toBytesLE 4 h.number_of_evlrs ++
      toBytesLE 8 h.point_count ++
      toBytesLE 8 (h.number_of_points_by_return.getD 0 0) ++
      toBytesLE 8 (h.number_of_points_by_return.getD 1 0) ++
      toBytesLE 8 (h.number_of_points_by_return.getD 2 0) ++
      toBytesLE 8 (h.number_of_points_by_return.getD 3 0) ++
      toBytesLE 8 (h.number_of_points_by_return.getD 4 0) ++
      toBytesLE 8 (h.number_of_points_by_return.getD 5 0) ++
      toBytesLE 8 (h.number_of_points_by_return.getD 6 0) ++
      toBytesLE 8 (h.number_of_points_by_return.getD 7 0) ++
      toBytesLE 8 (h.number_of_points_by_return.getD 8 0) ++
      toBytesLE 8 (h.number_of_points_by_return.getD 9 0) ++
      toBytesLE 8 (h.number_of_points_by_return.getD 10 0) ++
      toBytesLE 8 (h.number_of_points_by_return.getD 11 0) ++
      toBytesLE 8 (h.number_of_points_by_return.getD 12 0) ++
      toBytesLE 8 (h.number_of_points_by_return.getD 13 0) ++
      toBytesLE 8 (h.number_of_points_by_return.getD 14 0) := by
  unfold evlrSectionBytes
  rw [if_pos hv]

/-- Normal form of `write_to`: the mutated header, and either the overflow
error or the concatenation of the write's sections. -/
theorem write_to_eq (h : LasHeader) (today : Date) (wv : Bool) (hs : Nat)
    (hsize : LAS_HEADERS_SIZE h.version = some hs) :
    h.write_to today wv =
      (writeMutated h today wv hs,
       if h.version.minor < 4 ∧ h.point_count > 4294967295 then
         .error .pointCountOverflow
       else
         .ok (fixedPrefixBytes (writeMutated h today wv hs) hs ++
              countSectionBytes (writeMutated h today wv hs) ++
              coordsSectionBytes (writeMutated h today wv hs) ++
              waveformSectionBytes (writeMutated h today wv hs) ++
              evlrSectionBytes (writeMutated h today wv hs) ++
              (if wv then vlrsToBytes h.vlrs else []))) := by
  unfold LasHeader.write_to writeMutated
  by_cases hcd : h.creation_date.isNone = true
  all_goals cases wv
  all_goals simp only [hcd, Bool.false_eq_true, if_true, if_false, ite_true,
    ite_false, Bool.true_eq_false]
  all_goals simp only [hsize]
  all_goals by_cases hc : h.version.minor < 4 ∧ h.point_count > 4294967295
  all_goals simp only [hc, if_true, if_false, ite_true, ite_false]
  all_goals rfl

set_option maxHeartbeats 1600000 in
/-- C6: under a supported version, `write_to` fails with the
point-count-overflow error exactly when the header's minor version is
below 4 and the point count exceeds the 32-bit range; under minor >= 4
the 24 legacy bytes (32-bit count plus five 32-bit per-return slots) are
written as zeros regardless of the in-memory values, and the bytes from
offset 247 are exactly the 64-bit point count, the full 15-slot 64-bit
histogram, and then the VLR payload. -/
theorem write_point_count_widths (h : LasHeader) (today : Date) (wv : Bool)
    (hs : Nat) (hsize : LAS_HEADERS_SIZE h.version = some hs)
    (huuid : h.uuid.length = 16) :
    ((h.write_to today wv).2 = .error .pointCountOverflow ↔
      (h.version.minor < 4 ∧ 4294967295 < h.point_count)) ∧
    (∀ bs, (h.write_to today wv).2 = .ok bs → 4 ≤ h.version.minor →
      (bs.drop 107).take 24 = List.replicate 24 0 ∧
      bs.drop 247 =
        toBytesLE 8 h.point_count ++
        toBytesLE 8 (h.number_of_points_by_return.getD 0 0) ++
        toBytesLE 8 (h.number_of_points_by_return.getD 1 0) ++
        toBytesLE 8 (h.number_of_points_by_return.getD 2 0) ++
        toBytesLE 8 (h.number_of_points_by_return.getD 3 0) ++
        toBytesLE 8 (h.number_of_points_by_return.getD 4 0) ++
        toBytesLE 8 (h.number_of_points_by_return.getD 5 0) ++
        toBytesLE 8 (h.number_of_points_by_return.getD 6 0) ++
        toBytesLE 8 (h.number_of_points_by_return.getD 7 0) ++
        toBytesLE 8 (h.number_of_points_by_return.getD 8 0) ++
        toBytesLE 8 (h.number_of_points_by_return.getD 9 0) ++
        toBytesLE 8 (h.number_of_points_by_return.getD 10 0) ++
        toBytesLE 8 (h.number_of_points_by_return.getD 11 0) ++
        toBytesLE 8 (h.number_of_points_by_return.getD 12 0) ++
        toBytesLE 8 (h.number_of_points_by_return.getD 13 0) ++
        toBytesLE 8 (h.number_of_points_by_return.getD 14 0) ++
        (if wv then vlrsToBytes h.vlrs else [])) := by
  rw [write_to_eq h today wv hs hsize]
  have hm2 : (writeMutated h today wv hs).version.minor = h.version.minor := rfl
  have hu2 : (writeMutated h today wv hs).uuid.length = 16 := huuid
  constructor
  · by_cases hc : h.version.minor < 4 ∧ 4294967295 < h.point_count
    · rw [if_pos hc]
      exact iff_of_true rfl hc
    · rw [if_neg hc]
      exact iff_of_false (by simp) hc
  · intro bs hok hv4
    rw [if_neg (by omega)] at hok
    have hbs := (Except.ok.inj hok).symm
    subst hbs
    have hv4' : 4 ≤ (writeMutated h today wv hs).version.minor := hv4
    have hwave : 3 ≤ (writeMutated h today wv hs).version.minor := by
      rw [hm2]; omega
    have l1 := fixedPrefixBytes_length (writeMutated h today wv hs) hs hu2
    simp only [List.append_assoc]
    refine ⟨?_, ?_⟩
    · rw [drop_of_append _ l1, countSectionBytes_of_v4 _ hv4',
        take_of_append _ (by simp)]
    · have d131 : (fixedPrefixBytes (writeMutated h today wv hs) hs ++
          (countSectionBytes (writeMutated h today wv hs) ++
          (coordsSectionBytes (writeMutated h today wv hs) ++
          (waveformSectionBytes (writeMutated h today wv hs) ++
          (evlrSectionBytes (writeMutated h today wv hs) ++
          (if wv then vlrsToBytes h.vlrs else [])))))).drop 131 =
          coordsSectionBytes (writeMutated h today wv hs) ++
          (waveformSectionBytes (writeMutated h today wv hs) ++
          (evlrSectionBytes (writeMutated h today wv hs) ++
          (if wv then vlrsToBytes h.vlrs else []))) := by
        rw [(by norm_num : (131 : Nat) = 107 + 24), ← List.drop_drop,
          drop_of_append _ l1, drop_of_append _ (countSectionBytes_length _)]
      have d227 : (fixedPrefixBytes (writeMutated h today wv hs) hs ++
          (countSectionBytes (writeMutated h today wv hs) ++
          (coordsSectionBytes (writeMutated h today wv hs) ++
          (waveformSectionBytes (writeMutated h today wv hs) ++
          (evlrSectionBytes (writeMutated h today wv hs) ++
          (if wv then vlrsToBytes h.vlrs else [])))))).drop 227 =
          waveformSectionBytes (writeMutated h today wv hs) ++
          (evlrSectionBytes (writeMutated h today wv hs) ++
          (if wv then vlrsToBytes h.vlrs else [])) := by
        rw [(by norm_num : (227 : Nat) = 131 + 96), ← List.drop_drop, d131,
          drop_of_append _ (coordsSectionBytes_length _)]
      have d235 : (fixedPrefixBytes (writeMutated h today wv hs) hs ++
          (countSectionBytes (writeMutated h today wv hs) ++
          (coordsSectionBytes (writeMutated h today wv hs) ++
          (waveformSectionBytes (writeMutated h today wv hs) ++
          (evlrSectionBytes (writeMutated h today wv hs) ++
          (if wv then vlrsToBytes h.vlrs else [])))))).drop 235 =
          evlrSectionBytes (writeMutated h today wv hs) ++
          (if wv then vlrsToBytes h.vlrs else []) := by
        rw [(by norm_num : (235 : Nat) = 227 + 8), ← List.drop_drop, d227,
          drop_of_append _ (waveformSectionBytes_length_of _ hwave)]
      rw [show (247 : Nat) = 235 + 12 by norm_num, ← List.drop_drop, d235,
        evlrSectionBytes_of_v4 _ hv4']
      simp only [List.append_assoc]
      rw [show (12 : Nat) = 8 + 4 by norm_num, ← List.drop_drop,
        drop_of_append _ (toBytesLE_length 8 _),
        drop_of_append _ (toBytesLE_length 4 _)]
      rfl

/-- Witness for C6 at a concrete input: the fresh 1.4 header. -/
theorem write_point_count_widths_witness :
    ((header14.write_to sampleDate true).2 = .error .pointCountOverflow ↔
      (header14.version.minor < 4 ∧ 4294967295 < header14.point_count)) ∧
    ((bytes14.drop 107).take 24 = List.replicate 24 0 ∧
      bytes14.drop 247 =
        toBytesLE 8 header14.point_count ++
        toBytesLE 8 (header14.number_of_points_by_return.getD 0 0) ++
        toBytesLE 8 (header14.number_of_points_by_return.getD 1 0) ++
        toBytesLE 8 (header14.number_of_points_by_return.getD 2 0) ++
        toBytesLE 8 (header14.number_of_points_by_return.getD 3 0) ++
        toBytesLE 8 (header14.number_of_points_by_return.getD 4 0) ++
        toBytesLE 8 (header14.number_of_points_by_return.getD 5 0) ++
        toBytesLE 8 (header14.number_of_points_by_return.getD 6 0) ++
        toBytesLE 8 (header14.number_of_points_by_return.getD 7 0) ++
        toBytesLE 8 (header14.number_of_points_by_return.getD 8 0) ++
        toBytesLE 8 (header14.number_of_points_by_return.getD 9 0) ++
        toBytesLE 8 (header14.number_of_points_by_return.getD 10 0) ++
        toBytesLE 8 (header14.number_of_points_by_return.getD 11 0) ++
        toBytesLE 8 (header14.number_of_points_by_return.getD 12 0) ++
        toBytesLE 8 (header14.number_of_points_by_return.getD 13 0) ++
        toBytesLE 8 (header14.number_of_points_by_return.getD 14 0) ++
        (if true then vlrsToBytes header14.vlrs else [])) :=
  ⟨(write_point_count_widths header14 sampleDate true 375 rfl (by decide)).1,
   (write_point_count_widths header14 sampleDate true 375 rfl (by decide)).2
     bytes14 rfl (by decide)⟩

/-! ### The read path: point-format reconciliation (C7) -/

theorem foldl_add_extra (ds : List ExtraDim) (pf : PointFormat) :
    ds.foldl PointFormat.add_extra_dimension pf =
      ⟨pf.id, pf.extra_dimensions ++ ds⟩ := by
  induction ds generalizing pf with
  | nil => simp
  | cons d t ih =>
    rw [List.foldl_cons, ih]
    simp [PointFormat.add_extra_dimension]

theorem size_of_base {id b : Nat} (hb : basePointFormatSize id = some b) :
    (⟨id, []⟩ : PointFormat).size = b := by
  simp [PointFormat.size, hb]

/-- C7: through `read_from`, a present Extra-Bytes VLR whose stream also
declares the extra-dimension-free record size is spurious: it is dropped
(after a log warning, outside this embedding) and its descriptors are not
applied; otherwise every decoded descriptor is added to the point format;
and in all cases the read fails with the incoherent-point-size error
exactly when the declared point size differs from the resolved point
format's size. -/
theorem read_from_point_size_reconciliation
    (data : List Nat) (seekable : Bool) (today : Date)
    (h : LasHeader) (pfid psize bsize : Nat)
    (hpre : readPreamble data seekable today = .ok (h, pfid, psize))
    (hbase : basePointFormatSize (compressed_id_to_uncompressed pfid) = some bsize) :
    (∀ structs ds, firstEbStructs h.vlrs = some structs →
      dimsOfEbStructs structs = some ds → psize = bsize →
      LasHeader.read_from data seekable today = .ok
        { h with
            are_points_compressed := is_point_format_compressed pfid
            vlrs := h.vlrs.filter fun r => ! isEbRecord r
            point_format := ⟨compressed_id_to_uncompressed pfid, []⟩ }) ∧
    (∀ structs ds, firstEbStructs h.vlrs = some structs →
      dimsOfEbStructs structs = some ds → psize ≠ bsize →
      psize = (⟨compressed_id_to_uncompressed pfid, ds⟩ : PointFormat).size →
      LasHeader.read_from data seekable today = .ok
        { h with
            are_points_compressed := is_point_format_compressed pfid
            vlrs := h.vlrs
            point_format := ⟨compressed_id_to_uncompressed pfid, ds⟩ }) ∧
    (∀ pf, resolvedPointFormat pfid psize h.vlrs = some pf →
      (LasHeader.read_from data seekable today = .error .incoherentPointSize ↔
        psize ≠ pf.size)) := by
  have hrf : LasHeader.read_from data seekable today =
      match reconcileFormat pfid psize h.vlrs with
      | .error e => .error e
      | .ok (point_format, vlrs) =>
        .ok { h with
                are_points_compressed := is_point_format_compressed pfid
                vlrs := vlrs
                point_format := point_format } := by
    unfold LasHeader.read_from
    rw [hpre]
  refine ⟨?_, ?_, ?_⟩
  · intro structs ds hfe hds hps
    have hrc : reconcileFormat pfid psize h.vlrs =
        .ok (⟨compressed_id_to_uncompressed pfid, []⟩,
             h.vlrs.filter fun r => ! isEbRecord r) := by
      simp only [reconcileFormat]
      rw [hbase]
      simp only [hfe, hds, size_of_base hbase, if_pos hps]
      rw [if_neg (by simp [size_of_base hbase, hps])]
    rw [hrf, hrc]
  · intro structs ds hfe hds hps hsz
    have hrc : reconcileFormat pfid psize h.vlrs =
        .ok (⟨compressed_id_to_uncompressed pfid, ds⟩, h.vlrs) := by
      simp only [reconcileFormat]
      rw [hbase]
      simp only [hfe, hds, size_of_base hbase, if_neg hps, foldl_add_extra,
        List.nil_append]
      rw [if_neg (by simp [hsz])]
    rw [hrf, hrc]
  · intro pf hres
    simp only [resolvedPointFormat] at hres
    rw [hbase] at hres
    simp only [] at hres
    rcases hfe : firstEbStructs h.vlrs with _ | structs
    · rw [hfe] at hres
      simp only [Option.some.injEq] at hres
      subst hres
      have hrc : reconcileFormat pfid psize h.vlrs =
          if psize ≠ (⟨compressed_id_to_uncompressed pfid, []⟩ : PointFormat).size
          then .error .incoherentPointSize
          else .ok (⟨compressed_id_to_uncompressed pfid, []⟩, h.vlrs) := by
        simp only [reconcileFormat]
        rw [hbase]
        simp only [hfe]
      rw [hrf, hrc]
      by_cases hsz : psize = (⟨compressed_id_to_uncompressed pfid, []⟩ : PointFormat).size
      · rw [if_neg (by simp [hsz])]
        exact iff_of_false (by simp) (by simp [hsz])
      · rw [if_pos hsz]
        exact iff_of_true rfl hsz
    · rw [hfe] at hres
      simp only [] at hres
      rcases hds : dimsOfEbStructs structs with _ | ds
      · rw [hds] at hres
        simp only [] at hres
        exact Option.noConfusion hres
      · rw [hds] at hres
        simp only [] at hres
        by_cases hps : psize = (⟨compressed_id_to_uncompressed pfid, []⟩ : PointFormat).size
        · rw [if_pos hps] at hres
          simp only [Option.some.injEq] at hres
          subst hres
          have hrc : reconcileFormat pfid psize h.vlrs =
              .ok (⟨compressed_id_to_uncompressed pfid, []⟩,
                   h.vlrs.filter fun r => ! isEbRecord r) := by
            simp only [reconcileFormat]
            rw [hbase]
            simp only [hfe, hds, if_pos hps]
            rw [if_neg (by simp [← hps])]
          rw [hrf, hrc]
          exact iff_of_false (by simp) (by simp [← hps])
        · rw [if_neg hps] at hres
          simp only [Option.some.injEq] at hres
          subst hres
          by_cases hsz : psize =
              (ds.foldl PointFormat.add_extra_dimension
                ⟨compressed_id_to_uncompressed pfid, []⟩).size
          · have hrc : reconcileFormat pfid psize h.vlrs =
                .ok (ds.foldl PointFormat.add_extra_dimension
                       ⟨compressed_id_to_uncompressed pfid, []⟩, h.vlrs) := by
              unfold reconcileFormat
              rw [hbase]
              simp only [hfe, hds, if_neg hps]
              rw [if_neg (by simp [hsz])]
            rw [hrf, hrc]
            exact iff_of_false (by simp) (by simp [hsz])
          · have hrc : reconcileFormat pfid psize h.vlrs =
                .error .incoherentPointSize := by
              unfold reconcileFormat
              rw [hbase]
              simp only [hfe, hds, if_neg hps]
              rw [if_pos hsz]
            rw [hrf, hrc]
            exact iff_of_true rfl hsz

set_option maxRecDepth 1000000 in
/-- Witness for C7 at a concrete input: the stream of `headerWithBogusEb`
(declared point size 21, base size 20, one Extra-Bytes VLR). -/
theorem read_from_point_size_reconciliation_witness :
    LasHeader.read_from bogusStream true sampleDate =
        .error .incoherentPointSize ↔ c7psize ≠ c7pf.size :=
  (read_from_point_size_reconciliation bogusStream true sampleDate
      c7h c7pfid c7psize 20 rfl rfl).2.2 c7pf rfl

/-! ### Exactness of the parser over serialized data (towards C2) -/

theorem rdInt1 {rest : List Nat} {p v : Nat} (h : v < 256) :
    rdInt 1 ⟨toBytesLE 1 v ++ rest, p⟩ = (v, ⟨rest, p + 1⟩) :=
  rdInt_exact rest p (h.trans_le (by norm_num))

theorem rdInt2 {rest : List Nat} {p v : Nat} (h : v < 65536) :
    rdInt 2 ⟨toBytesLE 2 v ++ rest, p⟩ = (v, ⟨rest, p + 2⟩) :=
  rdInt_exact rest p (h.trans_le (by norm_num))

theorem rdInt4 {rest : List Nat} {p v : Nat} (h : v < 4294967296) :
    rdInt 4 ⟨toBytesLE 4 v ++ rest, p⟩ = (v, ⟨rest, p + 4⟩) :=
  rdInt_exact rest p (h.trans_le (by norm_num))

theorem rdInt8 {rest : List Nat} {p v : Nat} (h : v < 18446744073709551616) :
    rdInt 8 ⟨toBytesLE 8 v ++ rest, p⟩ = (v, ⟨rest, p + 8⟩) :=
  rdInt_exact rest p (h.trans_le (by norm_num))

theorem rd32 {rest : List Nat} {p : Nat} (s : List Nat) :
    rd 32 ⟨encodeStr32 s ++ rest, p⟩ = (encodeStr32 s, ⟨rest, p + 32⟩) :=
  rd_exact rest p (encodeStr32_length s)

theorem rd_self {rest : List Nat} {p : Nat} (bs : List Nat) :
    rd bs.length ⟨bs ++ rest, p⟩ = (bs, ⟨rest, p + bs.length⟩) :=
  rd_exact rest p rfl

theorem range_map_getD (l : List Nat) :
    (List.range l.length).map (fun i => l.getD i 0) = l := by
  induction l with
  | nil => rfl
  | cons a t ih =>
    rw [List.length_cons, List.range_succ_eq_map, List.map_cons, List.map_map]
    have hfun : ((fun i => (a :: t).getD i 0) ∘ Nat.succ) = fun i => t.getD i 0 := by
      funext i
      simp [Function.comp, List.getD_cons_succ]
    rw [List.getD_cons_zero, hfun, ih]

theorem expand3 {l : List Nat} (h : l.length = 3) :
    [l.getD 0 0, l.getD 1 0, l.getD 2 0] = l := by
  have e := range_map_getD l
  rw [h] at e
  exact e

theorem expand15 {l : List Nat} (h : l.length = 15) :
    [l.getD 0 0, l.getD 1 0, l.getD 2 0, l.getD 3 0, l.getD 4 0, l.getD 5 0,
     l.getD 6 0, l.getD 7 0, l.getD 8 0, l.getD 9 0, l.getD 10 0, l.getD 11 0,
     l.getD 12 0, l.getD 13 0, l.getD 14 0] = l := by
  have e := range_map_getD l
  rw [h] at e
  exact e

theorem ebStructToBytes_length (s : ExtraBytesStruct) :
    (ebStructToBytes s).length = 121 := by
  simp [ebStructToBytes, encodeStr32_length]

theorem rdEbStruct_exact {s : ExtraBytesStruct} (hs : EbStructWF s)
    (rest : List Nat) (p : Nat) :
    rdEbStruct ⟨ebStructToBytes s ++ rest, p⟩ = (s, ⟨rest, p + 121⟩) := by
  obtain ⟨h1, h2, h3, h4, h5, h6, h7, h8, h9, h10, h11, h12, h13⟩ := hs
  obtain ⟨res, fl, dt, op, nm, r2, sc, of, de⟩ := s
  obtain ⟨a, b, c, rfl⟩ := List.length_eq_three.mp h8
  obtain ⟨d, e, f, rfl⟩ := List.length_eq_three.mp h10
  simp only at h1 h2 h3 h4 h5 h6 h7 h9 h11 h12 h13
  have ha : a < 18446744073709551616 := h9 a (by simp)
  have hb : b < 18446744073709551616 := h9 b (by simp)
  have hc : c < 18446744073709551616 := h9 c (by simp)
  have hd : d < 18446744073709551616 := h11 d (by simp)
  have he : e < 18446744073709551616 := h11 e (by simp)
  have hf : f < 18446744073709551616 := h11 f (by simp)
  simp only [rdEbStruct, ebStructToBytes, List.append_assoc, List.getD_cons_zero,
    List.getD_cons_succ, rdInt2 h1, rdInt1 h2, rdInt1 h3, rdInt1 h4, rd32,
    rdInt4 h7, rdInt8 ha, rdInt8 hb, rdInt8 hc, rdInt8 hd, rdInt8 he, rdInt8 hf,
    rstripZeros_encodeStr32 h5 h6, rstripZeros_encodeStr32 h12 h13,
    Prod.mk.injEq, RSt.mk.injEq]

theorem rdEbStructs_exact {l : List ExtraBytesStruct}
    (hl : ∀ s ∈ l, EbStructWF s) (rest : List Nat) (p : Nat) :
    rdEbStructs l.length ⟨(l.map ebStructToBytes).flatten ++ rest, p⟩ =
      (l, ⟨rest, p + 121 * l.length⟩) := by
  induction l generalizing p with
  | nil => simp [rdEbStructs]
  | cons s t ih =>
    rw [List.length_cons, List.map_cons, List.flatten_cons, List.append_assoc]
    simp only [rdEbStructs, rdEbStruct_exact (hl s (by simp)),
      ih (fun x hx => hl x (by simp [hx])), Prod.mk.injEq, RSt.mk.injEq,
      true_and]
    omega

theorem rdVlrRecord_exact {r : VLRRecord} (hr : VLRRecordWF r)
    (rest : List Nat) (p : Nat) :
    rdVlrRecord ⟨vlrRecordToBytes r ++ rest, p⟩ =
      .ok (r, ⟨rest, p + (vlrRecordToBytes r).length⟩) := by
  have hflat : ∀ l : List ExtraBytesStruct,
      ((l.map ebStructToBytes).flatten).length = 121 * l.length := by
    intro l
    induction l with
    | nil => simp
    | cons x t ih =>
      simp only [List.map_cons, List.flatten_cons, List.length_append, ih,
        ebStructToBytes_length, List.length_cons]
      ring
  cases r with
  | eb structs =>
    obtain ⟨hn, hs⟩ := hr
    simp only [rdVlrRecord, vlrRecordToBytes, List.append_assoc,
      rdInt1 (show (1 : Nat) < 256 by norm_num), rdInt2 hn,
      rdEbStructs_exact hs, if_pos, List.length_append, List.length_cons,
      toBytesLE_length, hflat, Except.ok.injEq, Prod.mk.injEq, RSt.mk.injEq,
      true_and, ite_true, ite_false]
    omega
  | other tag payload =>
    obtain ⟨ht, hp⟩ := hr
    simp only [rdVlrRecord, vlrRecordToBytes, List.append_assoc,
      rdInt1 (show (0 : Nat) < 256 by norm_num), rdInt2 ht, rdInt2 hp, rd_self,
      List.length_append, toBytesLE_length, Except.ok.injEq, Prod.mk.injEq,
      RSt.mk.injEq, true_and, ite_true, ite_false,
      if_neg (show ¬ ((0 : Nat) = 1) by norm_num)]
    omega

theorem vlrListReadFrom_exact {l : List VLRRecord}
    (hl : ∀ r ∈ l, VLRRecordWF r) (rest : List Nat) (p : Nat) :
    vlrListReadFrom l.length ⟨vlrsToBytes l ++ rest, p⟩ =
      .ok (l, ⟨rest, p + (vlrsToBytes l).length⟩) := by
  induction l generalizing p with
  | nil => simp [vlrListReadFrom, vlrsToBytes]
  | cons r t ih =>
    rw [List.length_cons,
      show vlrsToBytes (r :: t) = vlrRecordToBytes r ++ vlrsToBytes t from by
        simp [vlrsToBytes],
      List.append_assoc]
    simp only [vlrListReadFrom, rdVlrRecord_exact (hl r (by simp)),
      ih (fun x hx => hl x (by simp [hx])), Except.ok.injEq, Prod.mk.injEq,
      RSt.mk.injEq, true_and, List.length_append]
    omega

theorem rd_len {bs rest : List Nat} {p n : Nat} (h : bs.length = n) :
    rd n ⟨bs ++ rest, p⟩ = (bs, ⟨rest, p + n⟩) := rd_exact rest p h

theorem rdSig {rest : List Nat} {p : Nat} :
    rd 4 ⟨lasFileSignature ++ rest, p⟩ = (lasFileSignature, ⟨rest, p + 4⟩) :=
  rd_exact rest p rfl

theorem vlrListReadFrom_exact_nil {l : List VLRRecord}
    (hl : ∀ r ∈ l, VLRRecordWF r) (p : Nat) :
    vlrListReadFrom l.length ⟨vlrsToBytes l, p⟩ =
      .ok (l, ⟨[], p + (vlrsToBytes l).length⟩) := by
  have e := vlrListReadFrom_exact hl [] p
  rwa [List.append_nil] at e

theorem getD_lt {l : List Nat} {b : Nat} (hb : ∀ x ∈ l, x < b) (h0 : 0 < b)
    (i : Nat) : l.getD i 0 < b := by
  induction l generalizing i with
  | nil => simpa [List.getD] using h0
  | cons a t ih =>
    cases i with
    | zero => simpa [List.getD_cons_zero] using hb a (by simp)
    | succ j =>
      simpa [List.getD_cons_succ] using ih (fun x hx => hb x (by simp [hx])) j

theorem hist_expand {l : List Nat} (h : l.length = 15)
    (h5 : l.drop 5 = List.replicate 10 0) :
    [l.getD 0 0, l.getD 1 0, l.getD 2 0, l.getD 3 0, l.getD 4 0,
     0, 0, 0, 0, 0, 0, 0, 0, 0, 0] = l := by
  rcases l with _ | ⟨a, _ | ⟨b, _ | ⟨c, _ | ⟨d, _ | ⟨e, rest⟩⟩⟩⟩⟩
  · simp at h
  · simp at h
  · simp at h
  · simp at h
  · simp at h
  · simp only [List.drop_succ_cons, List.drop_zero] at h5
    subst h5
    rfl

theorem daysInYear_le (y : Nat) : daysInYear y ≤ 366 := by
  unfold daysInYear
  split <;> norm_num

theorem readPreamble_of_write_12 (g : LasHeader) (today2 : Date) (d : Date)
    (hv : g.version = ⟨1, 1⟩ ∨ g.version = ⟨1, 2⟩)
    (hfs : g.file_source_id < 65536)
    (hge : g.global_encoding.value < 65536)
    (huuid : g.uuid.length = 16)
    (hsys1 : g.system_identifier.length ≤ 32)
    (hsys2 : g.system_identifier.getLast? ≠ some 0)
    (hgen1 : g.generating_software.length ≤ 32)
    (hgen2 : g.generating_software.getLast? ≠ some 0)
    (hcd : g.creation_date = some d) (hd : DateWF d)
    (hpc : g.point_count < 4294967296)
    (hsc : g.scales.length = 3) (hscb : ∀ x ∈ g.scales, x < 2 ^ 64)
    (hof : g.offsets.length = 3) (hofb : ∀ x ∈ g.offsets, x < 2 ^ 64)
    (hmx : g.maxs.length = 3) (hmxb : ∀ x ∈ g.maxs, x < 2 ^ 64)
    (hmn : g.mins.length = 3) (hmnb : ∀ x ∈ g.mins, x < 2 ^ 64)
    (hhist : g.number_of_points_by_return.length = 15)
    (hhistb : ∀ x ∈ g.number_of_points_by_return, x < 4294967296)
    (hhist5 : g.number_of_points_by_return.drop 5 = List.replicate 10 0)
    (hvlrs : ∀ r ∈ g.vlrs, VLRRecordWF r)
    (hnv : g.vlrs.length < 4294967296)
    (hoff : g.offset_to_point_data = 227 + (vlrsToBytes g.vlrs).length)
    (hoffb : g.offset_to_point_data < 4294967296)
    (hfmtid : g.point_format.id ≤ 10)
    (hpsize : g.point_format.size < 65536)
    (hwv : g.start_of_waveform_data_packet_record = 0)
    (hev1 : g.start_of_first_evlr = 0) (hev2 : g.number_of_evlrs = 0)
    (heh : g.extra_header_bytes = []) (hevb : g.extra_vlr_bytes = []) :
    readPreamble (fixedPrefixBytes g 227 ++ countSectionBytes g ++
        coordsSectionBytes g ++ waveformSectionBytes g ++ evlrSectionBytes g ++
        vlrsToBytes g.vlrs) true today2 =
      .ok ({ g with point_format := ⟨3, []⟩, are_points_compressed := false },
           (if g.are_points_compressed then
              uncompressed_id_to_compressed g.point_format.id
            else g.point_format.id),
           g.point_format.size) := by
  have hyday : d.yday < 65536 :=
    lt_of_le_of_lt hd.2.2.2 (lt_of_le_of_lt (daysInYear_le d.year) (by norm_num))
  have hyear : d.year < 65536 := lt_of_le_of_lt hd.2.1 (by norm_num)
  have hfmtb : (if g.are_points_compressed then
      uncompressed_id_to_compressed g.point_format.id else g.point_format.id) < 256 := by
    unfold uncompressed_id_to_compressed
    split <;> omega
  have hoffb' : 227 + (vlrsToBytes g.vlrs).length < 4294967296 := hoff ▸ hoffb
  have hb0 := getD_lt hhistb (by norm_num) 0
  have hb1 := getD_lt hhistb (by norm_num) 1
  have hb2 := getD_lt hhistb (by norm_num) 2
  have hb3 := getD_lt hhistb (by norm_num) 3
  have hb4 := getD_lt hhistb (by norm_num) 4
  have hsc0 := getD_lt hscb (by norm_num) 0
  have hsc1 := getD_lt hscb (by norm_num) 1
  have hsc2 := getD_lt hscb (by norm_num) 2
  have hof0 := getD_lt hofb (by norm_num) 0
  have hof1 := getD_lt hofb (by norm_num) 1
  have hof2 := getD_lt hofb (by norm_num) 2
  have hmx0 := getD_lt hmxb (by norm_num) 0
  have hmx1 := getD_lt hmxb (by norm_num) 1
  have hmx2 := getD_lt hmxb (by norm_num) 2
  have hmn0 := getD_lt hmnb (by norm_num) 0
  have hmn1 := getD_lt hmnb (by norm_num) 1
  have hmn2 := getD_lt hmnb (by norm_num) 2
  have hpf0 : (freshHeader ⟨1, 2⟩ ⟨3, []⟩ today2).point_format = ⟨3, []⟩ := rfl
  have hac0 : (freshHeader ⟨1, 2⟩ ⟨3, []⟩ today2).are_points_compressed = false := rfl
  have hsw0 : (freshHeader ⟨1, 2⟩ ⟨3, []⟩
      today2).start_of_waveform_data_packet_record = 0 := rfl
  have hsf0 : (freshHeader ⟨1, 2⟩ ⟨3, []⟩ today2).start_of_first_evlr = 0 := rfl
  have hne0 : (freshHeader ⟨1, 2⟩ ⟨3, []⟩ today2).number_of_evlrs = 0 := rfl
  rcases hv with hv | hv
  all_goals
  simp [readPreamble, fixedPrefixBytes, countSectionBytes, coordsSectionBytes,
    waveformSectionBytes, evlrSectionBytes, hv, hcd, dateYday, dateYear, heh,
    hevb, hwv, hev1, hev2, hoff, List.append_assoc, rdSig,
    rdInt2 hfs, rdInt2 hge, rd_len huuid,
    rdInt1 (show (1 : Nat) < 256 by norm_num),
    rdInt1 (show (2 : Nat) < 256 by norm_num),
    rd32, rdInt2 hyday, rdInt2 hyear,
    rdInt2 (show (227 : Nat) < 65536 by norm_num),
    rdInt4 hoffb', rdInt4 hnv, rdInt1 hfmtb, rdInt2 hpsize,
    rdInt4 hpc, rdInt4 hb0, rdInt4 hb1, rdInt4 hb2, rdInt4 hb3, rdInt4 hb4,
    rdInt8 hsc0, rdInt8 hsc1, rdInt8 hsc2, rdInt8 hof0, rdInt8 hof1,
    rdInt8 hof2, rdInt8 hmx0, rdInt8 hmx1, rdInt8 hmx2, rdInt8 hmn0,
    rdInt8 hmn1, rdInt8 hmn2,
    vlrListReadFrom_exact_nil hvlrs,
    dateFromYdayYear_roundtrip hd,
    rstripZeros_encodeStr32 hsys1 hsys2, rstripZeros_encodeStr32 hgen1 hgen2,
    expand3 hsc, expand3 hof, expand3 hmx, expand3 hmn,
    hist_expand hhist hhist5,
    hpf0, hac0, hsw0, hsf0, hne0, -List.getD_eq_getElem?_getD]

theorem readPreamble_of_write_13 (g : LasHeader) (today2 : Date) (d : Date)
    (hv : g.version = ⟨1, 3⟩)
    (hfs : g.file_source_id < 65536)
    (hge : g.global_encoding.value < 65536)
    (huuid : g.uuid.length = 16)
    (hsys1 : g.system_identifier.length ≤ 32)
    (hsys2 : g.system_identifier.getLast? ≠ some 0)
    (hgen1 : g.generating_software.length ≤ 32)
    (hgen2 : g.generating_software.getLast? ≠ some 0)
    (hcd : g.creation_date = some d) (hd : DateWF d)
    (hpc : g.point_count < 4294967296)
    (hsc : g.scales.length = 3) (hscb : ∀ x ∈ g.scales, x < 2 ^ 64)
    (hof : g.offsets.length = 3) (hofb : ∀ x ∈ g.offsets, x < 2 ^ 64)
    (hmx : g.maxs.length = 3) (hmxb : ∀ x ∈ g.maxs, x < 2 ^ 64)
    (hmn : g.mins.length = 3) (hmnb : ∀ x ∈ g.mins, x < 2 ^ 64)
    (hhist : g.number_of_points_by_return.length = 15)
    (hhistb : ∀ x ∈ g.number_of_points_by_return, x < 4294967296)
    (hhist5 : g.number_of_points_by_return.drop 5 = List.replicate 10 0)
    (hvlrs : ∀ r ∈ g.vlrs, VLRRecordWF r)
    (hnv : g.vlrs.length < 4294967296)
    (hoff : g.offset_to_point_data = 235 + (vlrsToBytes g.vlrs).length)
    (hoffb : g.offset_to_point_data < 4294967296)
    (hfmtid : g.point_format.id ≤ 10)
    (hpsize : g.point_format.size < 65536)
    (hwvb : g.start_of_waveform_data_packet_record < 18446744073709551616)
    (hev1 : g.start_of_first_evlr = 0) (hev2 : g.number_of_evlrs = 0)
    (heh : g.extra_header_bytes = []) (hevb : g.extra_vlr_bytes = []) :
    readPreamble (fixedPrefixBytes g 235 ++ countSectionBytes g ++
        coordsSectionBytes g ++ waveformSectionBytes g ++ evlrSectionBytes g ++
        vlrsToBytes g.vlrs) true today2 =
      .ok ({ g with point_format := ⟨3, []⟩, are_points_compressed := false },
           (if g.are_points_compressed then
              uncompressed_id_to_compressed g.point_format.id
            else g.point_format.id),
           g.point_format.size) := by
  have hyday : d.yday < 65536 :=
    lt_of_le_of_lt hd.2.2.2 (lt_of_le_of_lt (daysInYear_le d.year) (by norm_num))
  have hyear : d.year < 65536 := lt_of_le_of_lt hd.2.1 (by norm_num)
  have hfmtb : (if g.are_points_compressed then
      uncompressed_id_to_compressed g.point_format.id else g.point_format.id) < 256 := by
    unfold uncompressed_id_to_compressed
    split <;> omega
  have hoffb' : 235 + (vlrsToBytes g.vlrs).length < 4294967296 := hoff ▸ hoffb
  have hb0 := getD_lt hhistb (by norm_num) 0
  have hb1 := getD_lt hhistb (by norm_num) 1
  have hb2 := getD_lt hhistb (by norm_num) 2
  have hb3 := getD_lt hhistb (by norm_num) 3
  have hb4 := getD_lt hhistb (by norm_num) 4
  have hsc0 := getD_lt hscb (by norm_num) 0
  have hsc1 := getD_lt hscb (by norm_num) 1
  have hsc2 := getD_lt hscb (by norm_num) 2
  have hof0 := getD_lt hofb (by norm_num) 0
  have hof1 := getD_lt hofb (by norm_num) 1
  have hof2 := getD_lt hofb (by norm_num) 2
  have hmx0 := getD_lt hmxb (by norm_num) 0
  have hmx1 := getD_lt hmxb (by norm_num) 1
  have hmx2 := getD_lt hmxb (by norm_num) 2
  have hmn0 := getD_lt hmnb (by norm_num) 0
  have hmn1 := getD_lt hmnb (by norm_num) 1
  have hmn2 := getD_lt hmnb (by norm_num) 2
  have hpf0 : (freshHeader ⟨1, 2⟩ ⟨3, []⟩ today2).point_format = ⟨3, []⟩ := rfl
  have hac0 : (freshHeader ⟨1, 2⟩ ⟨3, []⟩ today2).are_points_compressed = false := rfl
  have hsf0 : (freshHeader ⟨1, 2⟩ ⟨3, []⟩ today2).start_of_first_evlr = 0 := rfl
  have hne0 : (freshHeader ⟨1, 2⟩ ⟨3, []⟩ today2).number_of_evlrs = 0 := rfl
  simp [readPreamble, fixedPrefixBytes, countSectionBytes, coordsSectionBytes,
    waveformSectionBytes, evlrSectionBytes, hv, hcd, dateYday, dateYear, heh,
    hevb, hev1, hev2, hoff, List.append_assoc, rdSig,
    rdInt2 hfs, rdInt2 hge, rd_len huuid,
    rdInt1 (show (1 : Nat) < 256 by norm_num),
    rdInt1 (show (3 : Nat) < 256 by norm_num),
    rd32, rdInt2 hyday, rdInt2 hyear,
    rdInt2 (show (235 : Nat) < 65536 by norm_num),
    rdInt4 hoffb', rdInt4 hnv, rdInt1 hfmtb, rdInt2 hpsize,
    rdInt4 hpc, rdInt4 hb0, rdInt4 hb1, rdInt4 hb2, rdInt4 hb3, rdInt4 hb4,
    rdInt8 hsc0, rdInt8 hsc1, rdInt8 hsc2, rdInt8 hof0, rdInt8 hof1,
    rdInt8 hof2, rdInt8 hmx0, rdInt8 hmx1, rdInt8 hmx2, rdInt8 hmn0,
    rdInt8 hmn1, rdInt8 hmn2, rdInt8 hwvb,
    vlrListReadFrom_exact_nil hvlrs,
    dateFromYdayYear_roundtrip hd,
    rstripZeros_encodeStr32 hsys1 hsys2, rstripZeros_encodeStr32 hgen1 hgen2,
    expand3 hsc, expand3 hof, expand3 hmx, expand3 hmn,
    hist_expand hhist hhist5,
    hpf0, hac0, hsf0, hne0, -List.getD_eq_getElem?_getD]

theorem readPreamble_of_write_14 (g : LasHeader) (today2 : Date) (d : Date)
    (hv : g.version = ⟨1, 4⟩)
    (hfs : g.file_source_id < 65536)
    (hge : g.global_encoding.value < 65536)
    (huuid : g.uuid.length = 16)
    (hsys1 : g.system_identifier.length ≤ 32)
    (hsys2 : g.system_identifier.getLast? ≠ some 0)
    (hgen1 : g.generating_software.length ≤ 32)
    (hgen2 : g.generating_software.getLast? ≠ some 0)
    (hcd : g.creation_date = some d) (hd : DateWF d)
    (hpc : g.point_count < 18446744073709551616)
    (hsc : g.scales.length = 3) (hscb : ∀ x ∈ g.scales, x < 2 ^ 64)
    (hof : g.offsets.length = 3) (hofb : ∀ x ∈ g.offsets, x < 2 ^ 64)
    (hmx : g.maxs.length = 3) (hmxb : ∀ x ∈ g.maxs, x < 2 ^ 64)
    (hmn : g.mins.length = 3) (hmnb : ∀ x ∈ g.mins, x < 2 ^ 64)
    (hhist : g.number_of_points_by_return.length = 15)
    (hhistb : ∀ x ∈ g.number_of_points_by_return, x < 18446744073709551616)
    (hvlrs : ∀ r ∈ g.vlrs, VLRRecordWF r)
    (hnv : g.vlrs.length < 4294967296)
    (hoff : g.offset_to_point_data = 375 + (vlrsToBytes g.vlrs).length)
    (hoffb : g.offset_to_point_data < 4294967296)
    (hfmtid : g.point_format.id ≤ 10)
    (hpsize : g.point_format.size < 65536)
    (hwvb : g.start_of_waveform_data_packet_record < 18446744073709551616)
    (hev1b : g.start_of_first_evlr < 18446744073709551616)
    (hev2b : g.number_of_evlrs < 4294967296)
    (heh : g.extra_header_bytes = []) (hevb : g.extra_vlr_bytes = []) :
    readPreamble (fixedPrefixBytes g 375 ++ countSectionBytes g ++
        coordsSectionBytes g ++ waveformSectionBytes g ++ evlrSectionBytes g ++
        vlrsToBytes g.vlrs) true today2 =
      .ok ({ g with point_format := ⟨3, []⟩, are_points_compressed := false },
           (if g.are_points_compressed then
              uncompressed_id_to_compressed g.point_format.id
            else g.point_format.id),
           g.point_format.size) := by
  have hyday : d.yday < 65536 :=
    lt_of_le_of_lt hd.2.2.2 (lt_of_le_of_lt (daysInYear_le d.year) (by norm_num))
  have hyear : d.year < 65536 := lt_of_le_of_lt hd.2.1 (by norm_num)
  have hfmtb : (if g.are_points_compressed then
      uncompressed_id_to_compressed g.point_format.id else g.point_format.id) < 256 := by
    unfold uncompressed_id_to_compressed
    split <;> omega
  have hoffb' : 375 + (vlrsToBytes g.vlrs).length < 4294967296 := hoff ▸ hoffb
  have hz24 : (List.replicate 24 0 : List Nat) =
      toBytesLE 4 0 ++ toBytesLE 4 0 ++ toBytesLE 4 0 ++ toBytesLE 4 0 ++
      toBytesLE 4 0 ++ toBytesLE 4 0 := rfl
  have hb0 := getD_lt hhistb (by norm_num) 0
  have hb1 := getD_lt hhistb (by norm_num) 1
  have hb2 := getD_lt hhistb (by norm_num) 2
  have hb3 := getD_lt hhistb (by norm_num) 3
  have hb4 := getD_lt hhistb (by norm_num) 4
  have hb5 := getD_lt hhistb (by norm_num) 5
  have hb6 := getD_lt hhistb (by norm_num) 6
  have hb7 := getD_lt hhistb (by norm_num) 7
  have hb8 := getD_lt hhistb (by norm_num) 8
  have hb9 := getD_lt hhistb (by norm_num) 9
  have hb10 := getD_lt hhistb (by norm_num) 10
  have hb11 := getD_lt hhistb (by norm_num) 11
  have hb12 := getD_lt hhistb (by norm_num) 12
  have hb13 := getD_lt hhistb (by norm_num) 13
  have hb14 := getD_lt hhistb (by norm_num) 14
  have hsc0 := getD_lt hscb (by norm_num) 0
  have hsc1 := getD_lt hscb (by norm_num) 1
  have hsc2 := getD_lt hscb (by norm_num) 2
  have hof0 := getD_lt hofb (by norm_num) 0
  have hof1 := getD_lt hofb (by norm_num) 1
  have hof2 := getD_lt hofb (by norm_num) 2
  have hmx0 := getD_lt hmxb (by norm_num) 0
  have hmx1 := getD_lt hmxb (by norm_num) 1
  have hmx2 := getD_lt hmxb (by norm_num) 2
  have hmn0 := getD_lt hmnb (by norm_num) 0
  have hmn1 := getD_lt hmnb (by norm_num) 1
  have hmn2 := getD_lt hmnb (by norm_num) 2
  have hpf0 : (freshHeader ⟨1, 2⟩ ⟨3, []⟩ today2).point_format = ⟨3, []⟩ := rfl
  have hac0 : (freshHeader ⟨1, 2⟩ ⟨3, []⟩ today2).are_points_compressed = false := rfl
  simp [readPreamble, fixedPrefixBytes, countSectionBytes, coordsSectionBytes,
    waveformSectionBytes, evlrSectionBytes, hv, hcd, dateYday, dateYear, heh,
    hevb, hoff, hz24, List.append_assoc, rdSig,
    rdInt2 hfs, rdInt2 hge, rd_len huuid,
    rdInt1 (show (1 : Nat) < 256 by norm_num),
    rdInt1 (show (4 : Nat) < 256 by norm_num),
    rd32, rdInt2 hyday, rdInt2 hyear,
    rdInt2 (show (375 : Nat) < 65536 by norm_num),
    rdInt4 hoffb', rdInt4 hnv, rdInt1 hfmtb, rdInt2 hpsize,
    rdInt4 (show (0 : Nat) < 4294967296 by norm_num),
    rdInt8 hpc, rdInt8 hb0, rdInt8 hb1, rdInt8 hb2, rdInt8 hb3, rdInt8 hb4,
    rdInt8 hb5, rdInt8 hb6, rdInt8 hb7, rdInt8 hb8, rdInt8 hb9, rdInt8 hb10,
    rdInt8 hb11, rdInt8 hb12, rdInt8 hb13, rdInt8 hb14,
    rdInt8 hsc0, rdInt8 hsc1, rdInt8 hsc2, rdInt8 hof0, rdInt8 hof1,
    rdInt8 hof2, rdInt8 hmx0, rdInt8 hmx1, rdInt8 hmx2, rdInt8 hmn0,
    rdInt8 hmn1, rdInt8 hmn2, rdInt8 hwvb, rdInt8 hev1b, rdInt4 hev2b,
    vlrListReadFrom_exact_nil hvlrs,
    dateFromYdayYear_roundtrip hd,
    rstripZeros_encodeStr32 hsys1 hsys2, rstripZeros_encodeStr32 hgen1 hgen2,
    expand3 hsc, expand3 hof, expand3 hmx, expand3 hmn,
    expand15 hhist,
    hpf0, hac0, -List.getD_eq_getElem?_getD]

theorem kindOfTagIndex_tagIndex (k : ElemKind) :
    kindOfTagIndex k.tagIndex = some k := by
  cases k <;> rfl

theorem tagIndex_pos (k : ElemKind) : 1 ≤ k.tagIndex := by
  cases k <;> decide

theorem tagIndex_le (k : ElemKind) : k.tagIndex ≤ 10 := by
  cases k <;> decide

theorem take_copyIntoSlots {n : Nat} {src : List Nat} (dst : List Nat)
    (h : src.length = n) (hn : n ≤ 3) :
    (copyIntoSlots n src dst).take n = src := by
  subst h
  rcases src with _ | ⟨a, _ | ⟨b, _ | ⟨c, _ | ⟨e, t⟩⟩⟩⟩
  · rfl
  · rfl
  · rfl
  · rfl
  · simp at hn

theorem dimOfEbStruct_ebStructOfDim {d : ExtraDim} (h : ExtraDimWF d) :
    dimOfEbStruct (ebStructOfDim d) = some d := by
  obtain ⟨nm, dsc, n, k, sc, os⟩ := d
  obtain ⟨h1, h2, h3, h4, h5, h6, h7, h8, h9⟩ := h
  dsimp only at h1 h2 h3 h4 h5 h6 h7 h8 h9
  by_cases hbig : n > 3 ∧ k = ElemKind.u1
  · obtain ⟨hb3, hbk⟩ := hbig
    subst hbk
    have hsn : sc = none := by
      rcases hx : sc with _ | scl
      · rfl
      · exact absurd (h8 scl hx).2.1 (by omega)
    have hon : os = none := by
      rcases hx : os with _ | osl
      · rfl
      · exact absurd (h9 osl hx).2.1 (by omega)
    subst hsn
    subst hon
    simp [ebStructOfDim, dimOfEbStruct, hb3,
      ExtraBytesStruct.scale_is_relevant, ExtraBytesStruct.offset_is_relevant]
  · have hn3 : n ≤ 3 := by
      rcases h7 with h7 | h7
      · exact h7
      · by_contra hc
        exact hbig ⟨by omega, h7⟩
    have htagpos := tagIndex_pos k
    have htagle := tagIndex_le k
    have hkt := kindOfTagIndex_tagIndex k
    have harith1 : (get_id_for_extra_dim_type k n - 1) % 10 + 1 = k.tagIndex := by
      unfold get_id_for_extra_dim_type
      omega
    have harith2 : (get_id_for_extra_dim_type k n - 1) / 10 + 1 = n := by
      unfold get_id_for_extra_dim_type
      omega
    have hne0 : get_id_for_extra_dim_type k n ≠ 0 := by
      unfold get_id_for_extra_dim_type
      omega
    have h1le : 1 ≤ get_id_for_extra_dim_type k n := by
      unfold get_id_for_extra_dim_type
      omega
    have h30 : get_id_for_extra_dim_type k n ≤ 30 := by
      unfold get_id_for_extra_dim_type
      omega
    rcases hsx : sc with _ | scl <;> rcases hox : os with _ | osl <;>
      subst hsx <;> subst hox
    · simp [ebStructOfDim, dimOfEbStruct, hbig, hne0, h1le, h30, harith1,
        harith2, hkt,
        ExtraBytesStruct.scale_is_relevant, ExtraBytesStruct.offset_is_relevant]
    · have hos := h9 osl rfl
      simp [ebStructOfDim, dimOfEbStruct, hbig, hne0, h1le, h30, harith1,
        harith2, hkt, ExtraBytesStruct.set_offset_is_relevant,
        ExtraBytesStruct.scale_is_relevant, ExtraBytesStruct.offset_is_relevant,
        take_copyIntoSlots _ hos.1 hn3]
    · have hsc := h8 scl rfl
      simp [ebStructOfDim, dimOfEbStruct, hbig, hne0, h1le, h30, harith1,
        harith2, hkt, ExtraBytesStruct.set_scale_is_relevant,
        ExtraBytesStruct.scale_is_relevant, ExtraBytesStruct.offset_is_relevant,
        take_copyIntoSlots _ hsc.1 hn3]
    · have hsc := h8 scl rfl
      have hos := h9 osl rfl
      simp [ebStructOfDim, dimOfEbStruct, hbig, hne0, h1le, h30, harith1,
        harith2, hkt, ExtraBytesStruct.set_scale_is_relevant,
        ExtraBytesStruct.set_offset_is_relevant,
        ExtraBytesStruct.scale_is_relevant, ExtraBytesStruct.offset_is_relevant,
        take_copyIntoSlots _ hsc.1 hn3, take_copyIntoSlots _ hos.1 hn3]

theorem dimsOfEbStructs_map {ds : List ExtraDim} (h : ∀ d ∈ ds, ExtraDimWF d) :
    dimsOfEbStructs (ds.map ebStructOfDim) = some ds := by
  induction ds with
  | nil => rfl
  | cons a t ih =>
    have ha := dimOfEbStruct_ebStructOfDim (h a (by simp))
    have ht := ih fun d hd => h d (by simp [hd])
    simp only [dimsOfEbStructs, List.map_cons, List.mapM_cons] at *
    have hloop : List.mapM.loop dimOfEbStruct (t.map ebStructOfDim) [] = some t := ht
    simp [ha, hloop]

theorem firstEbStructs_of_no_eb {l : List VLRRecord}
    (h : l.filter isEbRecord = []) : firstEbStructs l = none := by
  induction l with
  | nil => rfl
  | cons a t ih =>
    cases a with
    | eb s => simp [List.filter_cons, isEbRecord] at h
    | other tag p =>
      simp only [List.filter_cons, isEbRecord, Bool.false_eq_true,
        if_false, ite_false] at h
      simp [firstEbStructs, ih h]

theorem firstEbStructs_of_single {l : List VLRRecord} {s : List ExtraBytesStruct}
    (h : l.filter isEbRecord = [.eb s]) : firstEbStructs l = some s := by
  induction l with
  | nil => simp at h
  | cons a t ih =>
    cases a with
    | eb s' =>
      simp only [List.filter_cons, isEbRecord, if_true, ite_true,
        List.cons.injEq] at h
      simp [firstEbStructs, (VLRRecord.eb.inj h.1).symm]
    | other tag p =>
      simp only [List.filter_cons, isEbRecord, Bool.false_eq_true,
        if_false, ite_false] at h
      simp [firstEbStructs, ih h]

theorem byteSize_pos_of_wf {d : ExtraDim} (h : ExtraDimWF d) :
    0 < d.byteSize := by
  have h5 := h.2.2.2.2.1
  have hk : 0 < d.kind.byteSize := by cases d.kind <;> decide
  unfold ExtraDim.byteSize
  exact Nat.mul_pos h5 hk

theorem basePointFormatSize_of_le {id : Nat} (h : id ≤ 10) :
    ∃ b, basePointFormatSize id = some b := by
  interval_cases id <;> exact ⟨_, rfl⟩

/-- The point-format reconciliation succeeds on a synchronized header: given
the canonical Extra-Bytes VLR state, the raw id written for the (possibly
compressed) format and the true record size, `reconcileFormat` reproduces
the point format and leaves the VLR list untouched. -/
theorem reconcile_of_sync (pf : PointFormat) (vlrs : List VLRRecord)
    (hid : pf.id ≤ 10)
    (hwfd : ∀ d ∈ pf.extra_dimensions, ExtraDimWF d)
    (hsync : vlrs.filter isEbRecord =
      if pf.extra_dimensions.isEmpty then []
      else [VLRRecord.eb (pf.extra_dimensions.map ebStructOfDim)])
    {wid : Nat} (hwid : compressed_id_to_uncompressed wid = pf.id) :
    reconcileFormat wid pf.size vlrs = .ok (pf, vlrs) := by
  obtain ⟨b, hb⟩ := basePointFormatSize_of_le hid
  rcases hde : pf.extra_dimensions with _ | ⟨d0, drest⟩
  · have hfe : firstEbStructs vlrs = none := by
      apply firstEbStructs_of_no_eb
      rw [hsync, hde]
      rfl
    have hpf : pf = ⟨pf.id, []⟩ := by
      rcases pf with ⟨i, e⟩
      simp only [] at hde
      rw [hde]
    rw [reconcileFormat, hwid, hb]
    simp only [hfe]
    rw [← hpf]
    simp
  · have hfe : firstEbStructs vlrs =
        some (pf.extra_dimensions.map ebStructOfDim) := by
      apply firstEbStructs_of_single
      rw [hsync, hde]
      rfl
    have hds : dimsOfEbStructs (pf.extra_dimensions.map ebStructOfDim) =
        some pf.extra_dimensions := dimsOfEbStructs_map hwfd
    have hbase : (⟨pf.id, []⟩ : PointFormat).size = b := size_of_base hb
    have hsz : pf.size = b + (pf.extra_dimensions.map ExtraDim.byteSize).sum := by
      simp [PointFormat.size, hb]
    have hpos : 0 < (pf.extra_dimensions.map ExtraDim.byteSize).sum := by
      rw [hde, List.map_cons, List.sum_cons]
      have := byteSize_pos_of_wf (hwfd d0 (by rw [hde]; simp))
      omega
    have hne : pf.size ≠ (⟨pf.id, []⟩ : PointFormat).size := by
      rw [hbase, hsz]
      omega
    have hfold : pf.extra_dimensions.foldl PointFormat.add_extra_dimension
        (⟨pf.id, []⟩ : PointFormat) = pf := by
      rw [foldl_add_extra]
      rcases pf with ⟨i, e⟩
      simp
    rw [reconcileFormat, hwid, hb]
    simp only [hfe, hds, hne, if_false, ite_false]
    rw [hfold]
    simp

/-- Common tail of the round-trip argument: given the preamble parse of the
written bytes, `write_to` succeeds and the reconciliation plus final
assembly of `read_from` reproduce the post-write header exactly. -/
theorem roundtrip_tail (h : LasHeader) (today today2 : Date) (hs : Nat)
    (hsize : LAS_HEADERS_SIZE h.version = some hs)
    (hnof : ¬(h.version.minor < 4 ∧ h.point_count > 4294967295))
    (hid : h.point_format.id ≤ 10)
    (hwfd : ∀ d ∈ h.point_format.extra_dimensions, ExtraDimWF d)
    (hsync : ebSyncOk h)
    (hpre : readPreamble (fixedPrefixBytes (writeMutated h today true hs) hs ++
        countSectionBytes (writeMutated h today true hs) ++
        coordsSectionBytes (writeMutated h today true hs) ++
        waveformSectionBytes (writeMutated h today true hs) ++
        evlrSectionBytes (writeMutated h today true hs) ++
        vlrsToBytes (writeMutated h today true hs).vlrs) true today2 =
      .ok ({ writeMutated h today true hs with
             point_format := ⟨3, []⟩
             are_points_compressed := false },
           (if (writeMutated h today true hs).are_points_compressed then
              uncompressed_id_to_compressed
                (writeMutated h today true hs).point_format.id
            else (writeMutated h today true hs).point_format.id),
           (writeMutated h today true hs).point_format.size)) :
    ∃ bytes,
      h.write_to today true = (writeMutated h today true hs, Except.ok bytes) ∧
      LasHeader.read_from bytes true today2 =
        Except.ok (writeMutated h today true hs) := by
  have hid' : (writeMutated h today true hs).point_format.id ≤ 10 := hid
  have hwfd' : ∀ d ∈ (writeMutated h today true hs).point_format.extra_dimensions,
      ExtraDimWF d := hwfd
  have hwid : compressed_id_to_uncompressed
      (if (writeMutated h today true hs).are_points_compressed then
        uncompressed_id_to_compressed
          (writeMutated h today true hs).point_format.id
      else (writeMutated h today true hs).point_format.id) =
      (writeMutated h today true hs).point_format.id := by
    unfold compressed_id_to_uncompressed uncompressed_id_to_compressed
    split <;> omega
  have hsyncg : (writeMutated h today true hs).vlrs.filter isEbRecord =
      (if (writeMutated h today true hs).point_format.extra_dimensions.isEmpty
       then []
       else [VLRRecord.eb
         ((writeMutated h today true hs).point_format.extra_dimensions.map
           ebStructOfDim)]) := hsync
  have hrec := reconcile_of_sync (writeMutated h today true hs).point_format
    (writeMutated h today true hs).vlrs hid' hwfd' hsyncg hwid
  have hapc : is_point_format_compressed
      (if (writeMutated h today true hs).are_points_compressed then
        uncompressed_id_to_compressed
          (writeMutated h today true hs).point_format.id
      else (writeMutated h today true hs).point_format.id) =
      (writeMutated h today true hs).are_points_compressed := by
    unfold is_point_format_compressed uncompressed_id_to_compressed
    cases hc : (writeMutated h today true hs).are_points_compressed
    · simp only [hc, Bool.false_eq_true, if_false, ite_false,
        decide_eq_false_iff_not]
      omega
    · simp only [hc, if_true, ite_true, decide_eq_true_eq]
      omega
  refine ⟨fixedPrefixBytes (writeMutated h today true hs) hs ++
      countSectionBytes (writeMutated h today true hs) ++
      coordsSectionBytes (writeMutated h today true hs) ++
      waveformSectionBytes (writeMutated h today true hs) ++
      evlrSectionBytes (writeMutated h today true hs) ++
      vlrsToBytes (writeMutated h today true hs).vlrs, ?_, ?_⟩
  · rw [write_to_eq h today true hs hsize, if_neg hnof]
    rfl
  · unfold LasHeader.read_from
    rw [hpre]
    simp only []
    rw [hrec]
    simp only []
    rw [hapc]

/-- C2: for every supported version (1.1-1.4) and compatible point format —
that is, for every well-formed header — serializing with `write_to` and
parsing the bytes back with `read_from` succeeds and yields a header equal
to the post-write header state: bit-identical scales, offsets, maxs and
mins, the identical VLR list, the identical point-format extra dimensions,
and (through the version-appropriate wide fields) the same point count and
per-return histogram.  The legacy 32-bit count and 5-slot histogram bytes,
always zero-written under minor >= 4, do not leak into the parsed header. -/
theorem write_read_roundtrip (h : LasHeader) (today today2 : Date)
    (hw : LasHeaderWF h) (ht : DateWF today) :
    ∃ hs bytes,
      LAS_HEADERS_SIZE h.version = some hs ∧
      h.write_to today true = (writeMutated h today true hs, Except.ok bytes) ∧
      LasHeader.read_from bytes true today2 =
        Except.ok (writeMutated h today true hs) := by
  obtain ⟨hver, hcomp, hid, hfs, hge, huuid, hsys1, hsys2, hgen1, hgen2, hod,
    hpc64, hpc32, hsc, hscb, hof, hofb, hmx, hmxb, hmn, hmnb, hhist, hhistb,
    hhist5, hvlrs, hnv, hvb, hsync, hwfd, hpsize, heh, hevb, hwv3, hwvb,
    hev4, hev1b, hev2b⟩ := hw
  have hdo : ∃ d, (if h.creation_date.isNone then some today
      else h.creation_date) = some d ∧ DateWF d := by
    rcases hx : h.creation_date with _ | d0
    · exact ⟨today, by simp [hx], ht⟩
    · refine ⟨d0, by simp [hx], ?_⟩
      rw [hx] at hod
      simpa [OptDateWF] using hod
  obtain ⟨d, hcdg, hdwf⟩ := hdo
  rcases hver with hv | hv | hv | hv
  · have hm : h.version.minor = 1 := by rw [hv]
    have hsize : LAS_HEADERS_SIZE h.version = some 227 := by
      rw [hv]
      rfl
    have hnof : ¬(h.version.minor < 4 ∧ h.point_count > 4294967295) := by
      rintro ⟨-, hcnt⟩
      have := hpc32 (by omega)
      omega
    have hoffg : (writeMutated h today true 227).offset_to_point_data =
        227 + (vlrsToBytes (writeMutated h today true 227).vlrs).length := rfl
    have hoffbg : (writeMutated h today true 227).offset_to_point_data <
        4294967296 := by
      rw [hoffg]
      have hvb' : (vlrsToBytes (writeMutated h today true 227).vlrs).length +
          375 < 4294967296 := hvb
      omega
    have hpre := readPreamble_of_write_12 (writeMutated h today true 227)
      today2 d (Or.inl hv) hfs hge huuid hsys1 hsys2 hgen1 hgen2 hcdg hdwf
      (hpc32 (by omega)) hsc hscb hof hofb hmx hmxb hmn hmnb hhist hhistb
      (hhist5 (by omega)) hvlrs hnv hoffg hoffbg hid hpsize
      (hwv3 (by omega)) (hev4 (by omega)).1 (hev4 (by omega)).2 heh hevb
    obtain ⟨bytes, hW, hR⟩ := roundtrip_tail h today today2 227 hsize hnof
      hid hwfd hsync hpre
    exact ⟨227, bytes, hsize, hW, hR⟩
  · have hm : h.version.minor = 2 := by rw [hv]
    have hsize : LAS_HEADERS_SIZE h.version = some 227 := by
      rw [hv]
      rfl
    have hnof : ¬(h.version.minor < 4 ∧ h.point_count > 4294967295) := by
      rintro ⟨-, hcnt⟩
      have := hpc32 (by omega)
      omega
    have hoffg : (writeMutated h today true 227).offset_to_point_data =
        227 + (vlrsToBytes (writeMutated h today true 227).vlrs).length := rfl
    have hoffbg : (writeMutated h today true 227).offset_to_point_data <
        4294967296 := by
      rw [hoffg]
      have hvb' : (vlrsToBytes (writeMutated h today true 227).vlrs).length +
          375 < 4294967296 := hvb
      omega
    have hpre := readPreamble_of_write_12 (writeMutated h today true 227)
      today2 d (Or.inr hv) hfs hge huuid hsys1 hsys2 hgen1 hgen2 hcdg hdwf
      (hpc32 (by omega)) hsc hscb hof hofb hmx hmxb hmn hmnb hhist hhistb
      (hhist5 (by omega)) hvlrs hnv hoffg hoffbg hid hpsize
      (hwv3 (by omega)) (hev4 (by omega)).1 (hev4 (by omega)).2 heh hevb
    obtain ⟨bytes, hW, hR⟩ := roundtrip_tail h today today2 227 hsize hnof
      hid hwfd hsync hpre
    exact ⟨227, bytes, hsize, hW, hR⟩
  · have hm : h.version.minor = 3 := by rw [hv]
    have hsize : LAS_HEADERS_SIZE h.version = some 235 := by
      rw [hv]
      rfl
    have hnof : ¬(h.version.minor < 4 ∧ h.point_count > 4294967295) := by
      rintro ⟨-, hcnt⟩
      have := hpc32 (by omega)
      omega
    have hoffg : (writeMutated h today true 235).offset_to_point_data =
        235 + (vlrsToBytes (writeMutated h today true 235).vlrs).length := rfl
    have hoffbg : (writeMutated h today true 235).offset_to_point_data <
        4294967296 := by
      rw [hoffg]
      have hvb' : (vlrsToBytes (writeMutated h today true 235).vlrs).length +
          375 < 4294967296 := hvb
      omega
    have hpre := readPreamble_of_write_13 (writeMutated h today true 235)
      today2 d hv hfs hge huuid hsys1 hsys2 hgen1 hgen2 hcdg hdwf
      (hpc32 (by omega)) hsc hscb hof hofb hmx hmxb hmn hmnb hhist hhistb
      (hhist5 (by omega)) hvlrs hnv hoffg hoffbg hid hpsize
      hwvb (hev4 (by omega)).1 (hev4 (by omega)).2 heh hevb
    obtain ⟨bytes, hW, hR⟩ := roundtrip_tail h today today2 235 hsize hnof
      hid hwfd hsync hpre
    exact ⟨235, bytes, hsize, hW, hR⟩
  · have hm : h.version.minor = 4 := by rw [hv]
    have hsize : LAS_HEADERS_SIZE h.version = some 375 := by
      rw [hv]
      rfl
    have hnof : ¬(h.version.minor < 4 ∧ h.point_count > 4294967295) := by
      rintro ⟨hlt, -⟩
      omega
    have hoffg : (writeMutated h today true 375).offset_to_point_data =
        375 + (vlrsToBytes (writeMutated h today true 375).vlrs).length := rfl
    have hoffbg : (writeMutated h today true 375).offset_to_point_data <
        4294967296 := by
      rw [hoffg]
      have hvb' : (vlrsToBytes (writeMutated h today true 375).vlrs).length +
          375 < 4294967296 := hvb
      omega
    have hhistb64 : ∀ x ∈ h.number_of_points_by_return,
        x < 18446744073709551616 :=
      fun x hx => lt_trans (hhistb x hx) (by norm_num)
    have hpre := readPreamble_of_write_14 (writeMutated h today true 375)
      today2 d hv hfs hge huuid hsys1 hsys2 hgen1 hgen2 hcdg hdwf
      hpc64 hsc hscb hof hofb hmx hmxb hmn hmnb hhist hhistb64
      hvlrs hnv hoffg hoffbg hid hpsize
      hwvb hev1b hev2b heh hevb
    obtain ⟨bytes, hW, hR⟩ := roundtrip_tail h today today2 375 hsize hnof
      hid hwfd hsync hpre
    exact ⟨375, bytes, hsize, hW, hR⟩

set_option maxRecDepth 1000000 in
/-- Witness for the round-trip theorem at the default 1.2 / format-3
header. -/
theorem write_read_roundtrip_witness :
    LasHeaderWF (freshHeader ⟨1, 2⟩ ⟨3, []⟩ sampleDate) ∧ DateWF sampleDate ∧
    ∃ hs bytes,
      LAS_HEADERS_SIZE (freshHeader ⟨1, 2⟩ ⟨3, []⟩ sampleDate).version =
        some hs ∧
      (freshHeader ⟨1, 2⟩ ⟨3, []⟩ sampleDate).write_to sampleDate true =
        (writeMutated (freshHeader ⟨1, 2⟩ ⟨3, []⟩ sampleDate) sampleDate true hs,
         Except.ok bytes) ∧
      LasHeader.read_from bytes true sampleDate =
        Except.ok (writeMutated (freshHeader ⟨1, 2⟩ ⟨3, []⟩ sampleDate)
          sampleDate true hs) :=
  ⟨by decide, by decide,
   write_read_roundtrip (freshHeader ⟨1, 2⟩ ⟨3, []⟩ sampleDate) sampleDate
     sampleDate (by decide) (by decide)⟩

end Laspy
